import Mathlib

/-!
# SVGEditor: the canvas of `main.cpp`

A shallow embedding of class `Canvas` (`src/main.cpp`): the snapping function,
the three pointer handlers and the command-line interpreter `runCommand`,
followed by theorems about them.

Conventions of the embedding.

* `qreal` values are elements of a linearly ordered field `K` with a floor
  function, and the arithmetic of the code (`+`, `-`, `*`, `/`) is taken
  exactly in `K`. With `K = ℚ` the model runs (every finite `double` is a
  rational); with `K = ℝ` every non-negative number has a square root.
  Rounding error and the non-finite values (`inf`, `nan`) are outside the
  model.
* An `int` has 32 bits: `int` arithmetic is taken modulo 2^32 (`wrapInt`), and
  the conversion of a `double` to `int` is the truncation when that fits
  (`toInt`). The methods embedded here compute in `int` only inside `snap`.
* Qt functions whose result cannot be computed exactly in every such field, or
  whose grammar is Qt's own business (`QString::toLower`, `QString::toDouble`,
  `qSqrt` as used by `QLineF::length`), are fields of a `QtLib` value that the
  model takes as an argument; theorems hold for every such value.
* The scene is the list of items added after the constructor ran, oldest
  first. The constructor's decorations (grid, two rulers) never change and are
  left out; the indicator item is reached by the code only through the
  `snapIndicator` pointer and is kept in a field of that name.
* A `QGraphicsItem*` is an index into the scene list; `nullptr` is `none`.
-/

namespace SVGEditor

/-! ## Qt value types -/

/-- A `QString`, as its sequence of characters. -/
abbrev QString := List Char

variable {K : Type} [LinearOrderedField K]

/-- Mirror of `QPointF`. -/
structure QPointF (K : Type) where
  x : K
  y : K
deriving DecidableEq, Repr

/-- The operator `QPointF + QPointF`. -/
def QPointF.add (a b : QPointF K) : QPointF K := ⟨a.x + b.x, a.y + b.y⟩

instance : Add (QPointF K) := ⟨QPointF.add⟩

/-- Mirror of `QRectF`: top-left corner, width, height. -/
structure QRectF (K : Type) where
  x : K
  y : K
  w : K
  h : K
deriving DecidableEq, Repr

/-- The constructor `QRectF(topLeft, bottomRight)`. -/
def QRectF.ofPoints (tl br : QPointF K) : QRectF K :=
  ⟨tl.x, tl.y, br.x - tl.x, br.y - tl.y⟩

/-- The method `QRectF::normalized()`: a negative width (height) is flipped,
moving the corner. -/
def QRectF.normalized (r : QRectF K) : QRectF K :=
  let r1 : QRectF K := if r.w < 0 then { r with x := r.x + r.w, w := -r.w } else r
  if r1.h < 0 then { r1 with y := r1.y + r1.h, h := -r1.h } else r1

/-- Mirror of `QLineF`. -/
structure QLineF (K : Type) where
  p1 : QPointF K
  p2 : QPointF K
deriving DecidableEq, Repr

/-- The Qt functions the canvas calls and the model does not compute itself. -/
structure QtLib (K : Type) where
  /-- The method `QString::toLower()`. -/
  toLower : QString → QString
  /-- The method `QString::toDouble(&ok)`: `none` when `ok` is false. -/
  toDouble : QString → Option K
  /-- The function `qSqrt`. -/
  sqrt : K → K

/-- The method `QLineF::length()`: `qSqrt(dx*dx + dy*dy)`. -/
def QLineF.length (lib : QtLib K) (l : QLineF K) : K :=
  let x := l.p2.x - l.p1.x
  let y := l.p2.y - l.p1.y
  lib.sqrt (x * x + y * y)

/-- The value of an `int` expression whose exact result is `z`: an `int` has
32 bits, and the result is `z` reduced modulo 2^32 into [-2^31, 2^31). -/
def wrapInt (z : ℤ) : ℤ := (z + 2147483648) % 4294967296 - 2147483648

/-- Conversion of a `double` to `int`: truncation towards zero. When the
truncated value does not fit in 32 bits the result is `INT_MIN`, the value the
conversion instruction of x86 leaves (the language leaves that case
undefined). -/
def toInt [FloorRing K] (d : K) : ℤ :=
  let t : ℤ := if 0 ≤ d then ⌊d⌋ else ⌈d⌉
  if -2147483648 ≤ t ∧ t ≤ 2147483647 then t else -2147483648

/-- The function `qRound(double)` of Qt 5,
`d >= 0.0 ? int(d + 0.5) : int(d - double(int(d-1)) + 0.5) + int(d-1)`.
The result is an `int`; the sum in the second branch is a sum of `int`s. -/
def qRound [FloorRing K] (d : K) : ℤ :=
  if d ≥ 0 then toInt (d + 1 / 2)
  else wrapInt (toInt (d - ((toInt (d - 1) : ℤ) : K) + 1 / 2) + toInt (d - 1))

/-- The colours of `Qt::GlobalColor` that the canvas uses. -/
inductive Color
  | black
  | blue
  | red
  | darkGreen
  | gray
deriving DecidableEq, Repr

/-- One drawing call made on a `QPainterPath`. -/
inductive PathCmd (K : Type)
  | moveTo (p : QPointF K)
  | cubicTo (c1 c2 e : QPointF K)
deriving DecidableEq, Repr

/-- A `QPainterPath`, as the drawing calls made on it, in order. -/
abbrev QPainterPath (K : Type) := List (PathCmd K)

/-- The geometry of a scene item, one constructor per item class:
`QGraphicsRectItem`, `QGraphicsEllipseItem` (by its bounding rectangle),
`QGraphicsLineItem`, `QGraphicsPathItem`. -/
inductive Shape (K : Type)
  | rect (r : QRectF K)
  | ellipse (r : QRectF K)
  | line (l : QLineF K)
  | path (p : QPainterPath K)
deriving DecidableEq, Repr

/-- A scene item: geometry, pen colour, brush (`none` is `Qt::NoBrush`) and
z-value. -/
structure Item (K : Type) where
  shape : Shape K
  pen : Color
  brush : Option Color
  zValue : K
deriving DecidableEq, Repr

/-- The enum `Tool`. -/
inductive Tool
  | None
  | Rectangle
  | Ellipse
  | Line
  | Bezier
deriving DecidableEq, Repr

/-! ## The canvas -/

/-- The data members of `Canvas`, with the two function-static variables of
`runCommand` (`lastRadius`, `lastSize`) and the values sent through the signal
`mouseMoved` (oldest first). -/
structure Canvas (K : Type) where
  scene : List (Item K)
  tool : Tool
  snapToGrid : Bool
  drawing : Bool
  start : QPointF K
  currentPos : QPointF K
  currentItem : Option ℕ
  bezierPts : List (QPointF K)
  pendingCircleCenter : QPointF K
  pendingSquareCenter : QPointF K
  circlePending : Bool
  squarePending : Bool
  snapIndicator : QRectF K
  lastRadius : K
  lastSize : K
  mouseMoved : List (QPointF K)
deriving DecidableEq, Repr

/-- The state the constructor `Canvas::Canvas` leaves. -/
def Canvas.init (K : Type) [LinearOrderedField K] : Canvas K where
  scene := []
  tool := Tool.None
  snapToGrid := true
  drawing := false
  start := ⟨0, 0⟩
  currentPos := ⟨100, 100⟩
  currentItem := none
  bezierPts := []
  pendingCircleCenter := ⟨0, 0⟩
  pendingSquareCenter := ⟨0, 0⟩
  circlePending := false
  squarePending := false
  snapIndicator := ⟨-4, -4, 8, 8⟩
  lastRadius := 40
  lastSize := 80
  mouseMoved := []

/-- The method `Canvas::setTool`. -/
def Canvas.setTool (c : Canvas K) (t : Tool) : Canvas K := { c with tool := t }

/-- The method `Canvas::toggleSnap`. -/
def Canvas.toggleSnap (c : Canvas K) (enable : Bool) : Canvas K :=
  { c with snapToGrid := enable }

/-- The method `Canvas::snap`. The product `qRound(..) * 20` is a product of
`int`s, converted to `qreal` by the constructor of `QPointF`. -/
def Canvas.snap [FloorRing K] (c : Canvas K) (pt : QPointF K) : QPointF K :=
  if !c.snapToGrid then pt
  else ⟨((wrapInt (qRound (pt.x / 20) * 20) : ℤ) : K),
    ((wrapInt (qRound (pt.y / 20) * 20) : ℤ) : K)⟩

/-- The call `scene->addRect(rect, pen)` and its siblings: the item goes to the
end of the scene. -/
def Canvas.addItem (c : Canvas K) (it : Item K) : Canvas K :=
  { c with scene := c.scene ++ [it] }

/-- A kind-specific setter applied through `static_cast<T*>(currentItem)`:
`f` answers `none` for an item that is not a `T`, where the cast is undefined
behaviour. -/
def updateItem (scene : List (Item K)) (i : ℕ) (f : Shape K → Option (Shape K)) :
    Option (List (Item K)) :=
  match scene.get? i with
  | none => none
  | some it =>
    match f it.shape with
    | none => none
    | some sh => some (scene.set i { it with shape := sh })

/-- The handler `Canvas::mouseMoveEvent`; `pos` is `mapToScene(e->pos())`.
The result is `none` where the handler casts the current item to a class it
does not have. -/
def Canvas.mouseMoveEvent [FloorRing K] (lib : QtLib K) (c : Canvas K) (pos : QPointF K) : Option (Canvas K) :=
  let pt := c.snap pos
  let c1 : Canvas K := { c with mouseMoved := c.mouseMoved ++ [pt] }
  if !c1.drawing || c1.currentItem = none || c1.tool = Tool.Bezier then some c1
  else
    match c1.currentItem with
    | none => some c1
    | some i =>
      let updated : Option (List (Item K)) :=
        match c1.tool with
        | Tool.Rectangle =>
          updateItem c1.scene i fun
            | Shape.rect _ => some (Shape.rect (QRectF.ofPoints c1.start pt).normalized)
            | _ => none
        | Tool.Ellipse =>
          let r := QLineF.length lib ⟨c1.start, pt⟩
          updateItem c1.scene i fun
            | Shape.ellipse _ =>
              some (Shape.ellipse ⟨c1.start.x - r, c1.start.y - r, 2 * r, 2 * r⟩)
            | _ => none
        | Tool.Line =>
          updateItem c1.scene i fun
            | Shape.line _ => some (Shape.line ⟨c1.start, pt⟩)
            | _ => none
        | _ => some c1.scene
      match updated with
      | none => none
      | some sc =>
        some { c1 with
          scene := sc
          mouseMoved := c1.mouseMoved ++ [pt]
          snapIndicator := ⟨pt.x - 4, pt.y - 4, 8, 8⟩ }

/-- The handler `Canvas::mousePressEvent`; `pos` is `mapToScene(e->pos())`. -/
def Canvas.mousePressEvent [FloorRing K] (c : Canvas K) (pos : QPointF K) : Canvas K :=
  if c.tool = Tool.None then c
  else
    let c1 : Canvas K := { c with drawing := true, start := c.snap pos }
    match c1.tool with
    | Tool.Rectangle =>
      { c1.addItem ⟨Shape.rect (QRectF.ofPoints c1.start c1.start), Color.black, none, 0⟩ with
        currentItem := some c1.scene.length }
    | Tool.Ellipse =>
      { c1.addItem ⟨Shape.ellipse ⟨0, 0, 0, 0⟩, Color.blue, none, 0⟩ with
        currentItem := some c1.scene.length }
    | Tool.Line =>
      { c1.addItem ⟨Shape.line ⟨c1.start, c1.start⟩, Color.red, none, 0⟩ with
        currentItem := some c1.scene.length }
    | Tool.Bezier =>
      let pts := c1.bezierPts ++ [c1.start]
      match pts with
      | [p0, p1, p2, p3] =>
        { c1.addItem
            ⟨Shape.path [PathCmd.moveTo p0, PathCmd.cubicTo p1 p2 p3], Color.darkGreen, none, 0⟩ with
          bezierPts := []
          drawing := false }
      | _ => { c1 with bezierPts := pts }
    | Tool.None => c1

/-- The handler `Canvas::mouseReleaseEvent`. -/
def Canvas.mouseReleaseEvent (c : Canvas K) : Canvas K :=
  if c.tool ≠ Tool.Bezier then { c with drawing := false, currentItem := none }
  else c

/-! ## The command line -/

/-- The test `QChar::isSpace`, which the class `\\s` of `QRegExp` uses. -/
def isSpace (ch : Char) : Bool :=
  let n := ch.toNat
  n = 0x20 || (0x09 ≤ n && n ≤ 0x0d) || n = 0x85 || n = 0xa0 || n = 0x1680 ||
    (0x2000 ≤ n && n ≤ 0x200a) || n = 0x2028 || n = 0x2029 || n = 0x202f ||
    n = 0x205f || n = 0x3000

/-- Worker of `splitWs`; `inSep` says that the previous character was white
space, so that a run of white space is one separator. -/
def splitWsAux : Bool → QString → List QString
  | _, [] => [[]]
  | inSep, ch :: rest =>
    if isSpace ch then
      if inSep then splitWsAux true rest else [] :: splitWsAux true rest
    else
      match splitWsAux false rest with
      | [] => [[ch]]
      | t :: ts => (ch :: t) :: ts

/-- The call `split(QRegExp("\\s+"))`, with the default `KeepEmptyParts`: the
pieces between the maximal runs of white space, the empty piece before a
leading run and after a trailing run included. -/
def splitWs (s : QString) : List QString := splitWsAux false s

/-- The call `split(sep)` on a character, with the default `KeepEmptyParts`. -/
def splitChar (sep : Char) : QString → List QString
  | [] => [[]]
  | ch :: rest =>
    if ch = sep then [] :: splitChar sep rest
    else
      match splitChar sep rest with
      | [] => [[ch]]
      | t :: ts => (ch :: t) :: ts

/-- The call `remove(ch)`: every occurrence of the character is dropped. -/
def remove (ch : Char) (s : QString) : QString := s.filter (fun a => a != ch)

/-- The token list of `runCommand`: `cmd.toLower().split(QRegExp("\\s+"))`. -/
def tokenize (lib : QtLib K) (cmd : QString) : List QString := splitWs (lib.toLower cmd)

/-- The lambda `drawMarker` of `runCommand`. -/
def Canvas.drawMarker (c : Canvas K) : Canvas K :=
  let r : K := 5 / 2
  c.addItem
    ⟨Shape.ellipse ⟨c.currentPos.x - r, c.currentPos.y - r, 2 * r, 2 * r⟩,
      Color.black, some Color.black, 1000⟩

/-- One round of the loop of the `bezier` branch: a token `x,y` to a point,
`none` where the loop returns. -/
def parsePoint (lib : QtLib K) (tok : QString) : Option (QPointF K) :=
  let xy := splitChar ',' tok
  if xy.length ≠ 2 then none
  else
    match lib.toDouble (xy.getD 0 []), lib.toDouble (xy.getD 1 []) with
    | some x, some y => some ⟨x, y⟩
    | _, _ => none

/-- The body of `Canvas::runCommand` after the token list is built. -/
def Canvas.runTokens (lib : QtLib K) (c : Canvas K) (tokens : List QString) : Canvas K :=
  if tokens.isEmpty then c
  else if tokens.getD 0 [] = "start".toList ∧ tokens.length ≥ 3 then
    match lib.toDouble (remove 'x' (tokens.getD 1 [])),
        lib.toDouble (remove 'y' (tokens.getD 2 [])) with
    | some x, some y =>
      Canvas.drawMarker { c with currentPos := ⟨x, y⟩, circlePending := false, squarePending := false }
    | _, _ => c
  else if tokens.getD 0 [] = "move".toList ∧ tokens.length ≥ 3 then
    match lib.toDouble (tokens.getD 1 []), lib.toDouble (tokens.getD 2 []) with
    | some dx, some dy =>
      let delta : QPointF K := ⟨dx, dy⟩
      if c.circlePending then
        let r := QLineF.length lib ⟨c.pendingCircleCenter, c.pendingCircleCenter + delta⟩
        let c1 := c.addItem
          ⟨Shape.ellipse ⟨c.pendingCircleCenter.x - r, c.pendingCircleCenter.y - r, 2 * r, 2 * r⟩,
            Color.blue, none, 0⟩
        Canvas.drawMarker { c1 with
          lastRadius := r
          currentPos := c.pendingCircleCenter + delta
          circlePending := false }
      else if c.squarePending then
        let size := QLineF.length lib ⟨c.pendingSquareCenter, c.pendingSquareCenter + delta⟩ * 2
        let c1 := c.addItem
          ⟨Shape.rect ⟨c.pendingSquareCenter.x - size / 2, c.pendingSquareCenter.y - size / 2,
              size, size⟩, Color.black, none, 0⟩
        Canvas.drawMarker { c1 with
          lastSize := size
          currentPos := c.pendingSquareCenter + delta
          squarePending := false }
      else
        Canvas.drawMarker { c with currentPos := c.currentPos + delta }
    | _, _ => c
  else if tokens.getD 0 [] = "bezier".toList ∧ tokens.length = 5 then
    match parsePoint lib (tokens.getD 1 []), parsePoint lib (tokens.getD 2 []),
        parsePoint lib (tokens.getD 3 []), parsePoint lib (tokens.getD 4 []) with
    | some p0, some p1, some p2, some p3 =>
      c.addItem ⟨Shape.path [PathCmd.moveTo p0, PathCmd.cubicTo p1 p2 p3], Color.darkGreen, none, 0⟩
    | _, _, _, _ => c
  else if tokens.getD 0 [] = "circle".toList then
    if tokens.length = 1 then
      { c with pendingCircleCenter := c.currentPos, circlePending := true }
    else
      match lib.toDouble (tokens.getD 1 []) with
      | some r =>
        let c1 := c.addItem
          ⟨Shape.ellipse ⟨c.currentPos.x - r, c.currentPos.y - r, 2 * r, 2 * r⟩, Color.blue, none, 0⟩
        Canvas.drawMarker { c1 with lastRadius := r }
      | none => c
  else if tokens.getD 0 [] = "square".toList then
    if tokens.length = 1 then
      { c with pendingSquareCenter := c.currentPos, squarePending := true }
    else
      match lib.toDouble (tokens.getD 1 []) with
      | some s =>
        let c1 := c.addItem
          ⟨Shape.rect ⟨c.currentPos.x - s / 2, c.currentPos.y - s / 2, s, s⟩, Color.black, none, 0⟩
        Canvas.drawMarker { c1 with lastSize := s }
      | none => c
  else if tokens.getD 0 [] = "line".toList ∧ tokens.length ≥ 3 then
    match lib.toDouble (tokens.getD 1 []), lib.toDouble (tokens.getD 2 []) with
    | some dx, some dy =>
      let endp : QPointF K := c.currentPos + ⟨dx, dy⟩
      let c1 := c.addItem ⟨Shape.line ⟨c.currentPos, endp⟩, Color.red, none, 0⟩
      Canvas.drawMarker { c1 with currentPos := endp }
    | _, _ => c
  else if tokens.getD 0 [] = "ellipse".toList ∧ tokens.length ≥ 3 then
    match lib.toDouble (tokens.getD 1 []), lib.toDouble (tokens.getD 2 []) with
    | some rx, some ry =>
      Canvas.drawMarker
        (c.addItem
          ⟨Shape.ellipse ⟨c.currentPos.x - rx, c.currentPos.y - ry, 2 * rx, 2 * ry⟩,
            Color.darkGreen, none, 0⟩)
    | _, _ => c
  else c

/-- The slot `Canvas::runCommand`. -/
def Canvas.runCommand (lib : QtLib K) (c : Canvas K) (cmd : QString) : Canvas K :=
  c.runTokens lib (tokenize lib cmd)

/-- Successive command lines, first to last. -/
def Canvas.runCommands (lib : QtLib K) (c : Canvas K) : List QString → Canvas K
  | [] => c
  | cmd :: rest => Canvas.runCommands lib (c.runCommand lib cmd) rest

/-! ## A library instance for running the model -/

/-- The value of a string of decimal digits, `none` if a character is not one. -/
def digitsValue : QString → Option ℕ
  | [] => some 0
  | s => s.foldl (fun acc ch => match acc with
      | none => none
      | some n => if ch.isDigit then some (10 * n + (ch.toNat - 48)) else none) (some 0)

/-- An unsigned decimal literal `digits` or `digits.digits`, at least one digit
in front. -/
def unsignedValue (s : QString) : Option ℚ :=
  match splitChar '.' s with
  | [ip] => if ip.isEmpty then none else (digitsValue ip).map fun n => (n : ℚ)
  | [ip, fp] =>
    if ip.isEmpty then none
    else
      match digitsValue ip, digitsValue fp with
      | some n, some f => some ((n : ℚ) + (f : ℚ) / (10 : ℚ) ^ fp.length)
      | _, _ => none
  | _ => none

/-- A decimal literal with an optional sign. -/
def decimalValue : QString → Option ℚ
  | '-' :: s => (unsignedValue s).map fun v => -v
  | '+' :: s => unsignedValue s
  | s => unsignedValue s

/-- A library instance that can be run: ASCII lower-casing, plain decimal
literals, and a square root that is exact on squares of rationals. -/
def simpleLib : QtLib ℚ where
  toLower := fun s => s.map Char.toLower
  toDouble := decimalValue
  sqrt := fun v => (Nat.sqrt v.num.toNat : ℚ) / (Nat.sqrt v.den : ℚ)

/-- The same lower-casing and decimal literals over any field `K`, with a
square root of the caller's choice. -/
def decimalLib (sqrt : K → K) : QtLib K where
  toLower := fun s => s.map Char.toLower
  toDouble := fun s => (decimalValue s).map fun q => (q : K)
  sqrt := sqrt

/-! ## Events and runs -/

/-- What the user interface can do to the canvas: the two setters, the three
pointer handlers and a command line. -/
inductive Event (K : Type)
  | setTool (t : Tool)
  | toggleSnap (enable : Bool)
  | press (pos : QPointF K)
  | move (pos : QPointF K)
  | release
  | command (cmd : QString)
deriving DecidableEq, Repr

/-- One event delivered to the canvas; `none` where `mouseMoveEvent` has no
defined result. -/
def Canvas.step [FloorRing K] (lib : QtLib K) (c : Canvas K) : Event K → Option (Canvas K)
  | Event.setTool t => some (c.setTool t)
  | Event.toggleSnap b => some (c.toggleSnap b)
  | Event.press pos => some (c.mousePressEvent pos)
  | Event.move pos => c.mouseMoveEvent lib pos
  | Event.release => some c.mouseReleaseEvent
  | Event.command cmd => some (c.runCommand lib cmd)

/-- Events delivered one after the other, first to last. -/
def Canvas.runEvents [FloorRing K] (lib : QtLib K) (c : Canvas K) : List (Event K) → Option (Canvas K)
  | [] => some c
  | e :: rest =>
    match c.step lib e with
    | none => none
    | some c1 => Canvas.runEvents lib c1 rest

/-- Pointer moves and releases, the events that may come between two presses. -/
def Event.isMoveOrRelease : Event K → Bool
  | Event.move _ => true
  | Event.release => true
  | _ => false

/-! ## Vocabulary of the statements -/

/-- The marker dot that `drawMarker` puts at `p`: a filled black disc of radius
2.5 with z-value 1000. -/
def markerAt (p : QPointF K) : Item K :=
  ⟨Shape.ellipse ⟨p.x - 5 / 2, p.y - 5 / 2, 2 * (5 / 2), 2 * (5 / 2)⟩,
    Color.black, some Color.black, 1000⟩

/-- The blue circle of radius `r` about `p`, as the command line draws it. -/
def circleItem (p : QPointF K) (r : K) : Item K :=
  ⟨Shape.ellipse ⟨p.x - r, p.y - r, 2 * r, 2 * r⟩, Color.blue, none, 0⟩

/-- The black square of side `s` about `p`, as the command line draws it. -/
def squareItem (p : QPointF K) (s : K) : Item K :=
  ⟨Shape.rect ⟨p.x - s / 2, p.y - s / 2, s, s⟩, Color.black, none, 0⟩

/-- The black rectangle item of the Rectangle tool. -/
def rectItem (r : QRectF K) : Item K := ⟨Shape.rect r, Color.black, none, 0⟩

/-- The dark green cubic path from `p0` to `p3` with control points `p1`, `p2`. -/
def cubicItem (p0 p1 p2 p3 : QPointF K) : Item K :=
  ⟨Shape.path [PathCmd.moveTo p0, PathCmd.cubicTo p1 p2 p3], Color.darkGreen, none, 0⟩

/-- The library square root is exact at `v`: its value there is the
non-negative number whose square is `v`. -/
def SqrtExact (lib : QtLib K) (v : K) : Prop :=
  0 ≤ lib.sqrt v ∧ lib.sqrt v * lib.sqrt v = v

/-- A sequence of command lines in which no argument-less `circle` is run while
a square is pending and no argument-less `square` is run while a circle is
pending, started in state `c`. -/
def NoOverlap (lib : QtLib K) : Canvas K → List QString → Prop
  | _, [] => True
  | c, cmd :: rest =>
    (c.squarePending = true → tokenize lib cmd ≠ ["circle".toList]) ∧
    (c.circlePending = true → tokenize lib cmd ≠ ["square".toList]) ∧
    NoOverlap lib (c.runCommand lib cmd) rest

/-- The red line item from `p1` to `p2`, as the command line draws it. -/
def lineItem (p1 p2 : QPointF K) : Item K := ⟨Shape.line ⟨p1, p2⟩, Color.red, none, 0⟩

/-- The dark green ellipse about `p` with radii `rx`, `ry`, as the command line
draws it. -/
def ellipseItem (p : QPointF K) (rx ry : K) : Item K :=
  ⟨Shape.ellipse ⟨p.x - rx, p.y - ry, 2 * rx, 2 * ry⟩, Color.darkGreen, none, 0⟩

/-- The token `tok` has the form `x,y`, with `x` and `y` numbers that are the
coordinates of `p`. -/
def PointToken (lib : QtLib K) (tok : QString) (p : QPointF K) : Prop :=
  ∃ xs ys, splitChar ',' tok = [xs, ys] ∧ lib.toDouble xs = some p.x ∧
    lib.toDouble ys = some p.y

/-- The verbs of the command language. -/
def verbs : List QString :=
  ["start".toList, "move".toList, "bezier".toList, "circle".toList, "square".toList,
    "line".toList, "ellipse".toList]

/-- The rounding that the specification names for `snap`: to the nearest
integer, ties away from zero. -/
def specRound [FloorRing K] (d : K) : ℤ := if 0 ≤ d then ⌊d + 1 / 2⌋ else ⌈d - 1 / 2⌉

/-- The coordinates at which `snap` stays within the range of `int`: those `x`
for which `qRound(x / 20) * 20` lies between `INT_MIN` and `INT_MAX`. -/
def SnapRange (x : K) : Prop := -2147483650 ≤ x ∧ x < 2147483650

/-- The item class that a press with tool `t` creates: `s` is of that class. -/
def toolMakes (t : Tool) (s : Shape K) : Bool :=
  match t, s with
  | Tool.Rectangle, Shape.rect _ => true
  | Tool.Ellipse, Shape.ellipse _ => true
  | Tool.Line, Shape.line _ => true
  | _, _ => false

/-- Draft and tool agree: a held draft is an item of the scene, of the class
that the current tool creates. -/
def DraftOK (c : Canvas K) : Prop :=
  ∀ i, c.currentItem = some i →
    ∃ it, c.scene.get? i = some it ∧ toolMakes c.tool it.shape = true

/-- An event sequence, started in state `c`, in which `setTool` is only
invoked while no draft is held. -/
def SetToolGuarded [FloorRing K] (lib : QtLib K) : Canvas K → List (Event K) → Prop
  | _, [] => True
  | c, e :: es =>
    (∀ t, e = Event.setTool t → c.currentItem = none) ∧
    ∀ c1, c.step lib e = some c1 → SetToolGuarded lib c1 es

/-- The shape is a path. -/
def Shape.isPath : Shape K → Bool
  | Shape.path _ => true
  | _ => false

/-- The item is a path item. -/
def Item.isPath (it : Item K) : Bool := it.shape.isPath

/-- The number of path items of a scene. -/
def pathCount (scene : List (Item K)) : ℕ := scene.countP Item.isPath

/-- The number of path items that the pointer handlers add to the scene in
the course of a run. -/
def handlerPaths [FloorRing K] (lib : QtLib K) : Canvas K → List (Event K) → ℕ
  | _, [] => 0
  | c, e :: es =>
    match c.step lib e with
    | none => 0
    | some c1 =>
      (match e with
        | Event.press _ => pathCount c1.scene - pathCount c.scene
        | Event.move _ => pathCount c1.scene - pathCount c.scene
        | Event.release => pathCount c1.scene - pathCount c.scene
        | _ => 0) + handlerPaths lib c1 es

/-- The number of presses delivered while the tool is Bezier in the course of
a run. -/
def bezierPresses [FloorRing K] (lib : QtLib K) : Canvas K → List (Event K) → ℕ
  | _, [] => 0
  | c, e :: es =>
    match c.step lib e with
    | none => 0
    | some c1 =>
      (match e with
        | Event.press _ => if c.tool = Tool.Bezier then 1 else 0
        | _ => 0) + bezierPresses lib c1 es

/-! ## Lemmas on the command interpreter -/

theorem drawMarker_eq (c : Canvas K) :
    c.drawMarker = { c with scene := c.scene ++ [markerAt c.currentPos] } := rfl

theorem length_delta (lib : QtLib K) (p : QPointF K) (dx dy : K) :
    QLineF.length lib ⟨p, p + ⟨dx, dy⟩⟩ = lib.sqrt (dx * dx + dy * dy) := by
  show lib.sqrt _ = _
  congr 1
  show (p.x + dx - p.x) * (p.x + dx - p.x) + (p.y + dy - p.y) * (p.y + dy - p.y) = _
  ring

theorem add_x (p q : QPointF K) : (p + q).x = p.x + q.x := rfl

theorem add_y (p q : QPointF K) : (p + q).y = p.y + q.y := rfl

theorem add_add_mk (p : QPointF K) (a b a1 b1 : K) :
    p + ⟨a, b⟩ + ⟨a1, b1⟩ = p + ⟨a + a1, b + b1⟩ := by
  show QPointF.mk _ _ = QPointF.mk _ _
  congr 1 <;> simp [add_x, add_y, add_assoc]

theorem eq_singleton_of_getD {tokens : List QString} {v : QString}
    (h0 : tokens.getD 0 [] = v) (hl : tokens.length = 1) : tokens = [v] := by
  match tokens, hl with
  | [t], _ => simpa using h0

theorem runTokens_circle (lib : QtLib K) (c : Canvas K) :
    c.runTokens lib ["circle".toList] =
      { c with pendingCircleCenter := c.currentPos, circlePending := true } := by
  simp [Canvas.runTokens]

theorem runTokens_square (lib : QtLib K) (c : Canvas K) :
    c.runTokens lib ["square".toList] =
      { c with pendingSquareCenter := c.currentPos, squarePending := true } := by
  simp [Canvas.runTokens]

theorem runTokens_move (lib : QtLib K) (c : Canvas K) (t1 t2 : QString) (rest : List QString)
    (dx dy : K) (h1 : lib.toDouble t1 = some dx) (h2 : lib.toDouble t2 = some dy) :
    c.runTokens lib ("move".toList :: t1 :: t2 :: rest) =
      if c.circlePending then
        { c with
          scene := c.scene ++
            [circleItem c.pendingCircleCenter (lib.sqrt (dx * dx + dy * dy)),
              markerAt (c.pendingCircleCenter + ⟨dx, dy⟩)]
          lastRadius := lib.sqrt (dx * dx + dy * dy)
          currentPos := c.pendingCircleCenter + ⟨dx, dy⟩
          circlePending := false }
      else if c.squarePending then
        { c with
          scene := c.scene ++
            [squareItem c.pendingSquareCenter (lib.sqrt (dx * dx + dy * dy) * 2),
              markerAt (c.pendingSquareCenter + ⟨dx, dy⟩)]
          lastSize := lib.sqrt (dx * dx + dy * dy) * 2
          currentPos := c.pendingSquareCenter + ⟨dx, dy⟩
          squarePending := false }
      else
        { c with
          scene := c.scene ++ [markerAt (c.currentPos + ⟨dx, dy⟩)]
          currentPos := c.currentPos + ⟨dx, dy⟩ } := by
  simp only [Canvas.runTokens, List.isEmpty_cons, List.getD_cons_zero, List.getD_cons_succ, h1, h2,
    length_delta, drawMarker_eq, Canvas.addItem]
  have e1 : ¬ ("move".toList = "start".toList) := by decide
  have e2 : List.length ("move".toList :: t1 :: t2 :: rest) ≥ 3 := by simp
  simp only [e1, e2, false_and, and_self, if_false, if_true, Bool.false_eq_true]
  split_ifs <;> simp [circleItem, squareItem, markerAt, List.append_assoc]

/-- A line can raise the circle flag only by being the argument-less `circle`. -/
theorem circlePending_runTokens (lib : QtLib K) (c : Canvas K) (tokens : List QString)
    (h : (c.runTokens lib tokens).circlePending = true) :
    c.circlePending = true ∨ tokens = ["circle".toList] := by
  unfold Canvas.runTokens at h
  repeat' split at h
  all_goals first
    | exact Or.inl h
    | exact absurd h Bool.false_ne_true
    | exact Or.inr (eq_singleton_of_getD (by assumption) (by assumption))

/-- A line can raise the square flag only by being the argument-less `square`. -/
theorem squarePending_runTokens (lib : QtLib K) (c : Canvas K) (tokens : List QString)
    (h : (c.runTokens lib tokens).squarePending = true) :
    c.squarePending = true ∨ tokens = ["square".toList] := by
  unfold Canvas.runTokens at h
  repeat' split at h
  all_goals first
    | exact Or.inl h
    | exact absurd h Bool.false_ne_true
    | exact Or.inr (eq_singleton_of_getD (by assumption) (by assumption))

theorem runCommand_eq (lib : QtLib K) (c : Canvas K) (cmd : QString) :
    c.runCommand lib cmd = c.runTokens lib (tokenize lib cmd) := rfl

/-- The invariant step behind C1, from any state. -/
theorem noOverlap_invariant (lib : QtLib K) :
    ∀ (cmds : List QString) (c : Canvas K),
      ¬ (c.circlePending = true ∧ c.squarePending = true) → NoOverlap lib c cmds →
      ¬ ((c.runCommands lib cmds).circlePending = true ∧
          (c.runCommands lib cmds).squarePending = true)
  | [], _, hc, _ => hc
  | cmd :: rest, c, hc, hno => by
    obtain ⟨hsq, hci, hrest⟩ := hno
    refine noOverlap_invariant lib rest (c.runCommand lib cmd) ?_ hrest
    rintro ⟨h1, h2⟩
    rcases circlePending_runTokens lib c _ h1 with a | a <;>
      rcases squarePending_runTokens lib c _ h2 with b | b
    · exact hc ⟨a, b⟩
    · exact hci a b
    · exact hsq b a
    · rw [a] at b
      exact absurd b (by decide)

theorem simpleLib_sqrt_sq (n : ℕ) : simpleLib.sqrt ((n : ℚ) * (n : ℚ)) = (n : ℚ) := by
  have h : ((n : ℚ) * (n : ℚ)) = ((n * n : ℕ) : ℚ) := by push_cast; ring
  simp only [simpleLib]
  rw [h, Rat.num_natCast, Rat.den_natCast, Int.toNat_natCast, Nat.sqrt_eq]
  simp

/-! ## The pending operation (C1, C2) -/

/-- C1, counterexample: from the initial state the lines `circle`, `square`
leave both pending flags true. -/
theorem both_pending_after_circle_square :
    ((Canvas.init ℚ).runCommands simpleLib ["circle".toList, "square".toList]).circlePending = true ∧
    ((Canvas.init ℚ).runCommands simpleLib ["circle".toList, "square".toList]).squarePending = true := by
  decide

/-- C1, as amended: in every state reached from the initial state by command
lines among which no argument-less `circle` is run while a square is pending
and no argument-less `square` is run while a circle is pending, the two
pending flags are not both true. -/
theorem pending_exclusive_without_overlap (lib : QtLib K) (cmds : List QString)
    (h : NoOverlap lib (Canvas.init K) cmds) :
    ¬ (((Canvas.init K).runCommands lib cmds).circlePending = true ∧
        ((Canvas.init K).runCommands lib cmds).squarePending = true) :=
  noOverlap_invariant lib cmds (Canvas.init K) (fun h0 => Bool.false_ne_true h0.1) h

/-- C1, witness: the lines `circle`, `move 3 4`, `square`. -/
theorem pending_exclusive_without_overlap_witness :
    NoOverlap simpleLib (Canvas.init ℚ) ["circle".toList, "move 3 4".toList, "square".toList] ∧
    ¬ (((Canvas.init ℚ).runCommands simpleLib
          ["circle".toList, "move 3 4".toList, "square".toList]).circlePending = true ∧
        ((Canvas.init ℚ).runCommands simpleLib
          ["circle".toList, "move 3 4".toList, "square".toList]).squarePending = true) :=
  have h : NoOverlap simpleLib (Canvas.init ℚ)
      ["circle".toList, "move 3 4".toList, "square".toList] := by
    refine ⟨by decide, by decide, by decide, by decide, by decide, by decide, trivial⟩
  ⟨h, pending_exclusive_without_overlap simpleLib _ h⟩

/-- C2, counterexample: with a circle pending at (100,100), the lines `square`
and `move 3 4` draw the circle (radius 5) and its marker, no square, and the
square is still pending afterwards. -/
theorem square_does_not_replace_circle :
    ((Canvas.init ℚ).runCommand simpleLib "circle".toList).circlePending = true ∧
    (((((Canvas.init ℚ).runCommand simpleLib "circle".toList).runCommand simpleLib
        "square".toList).runCommand simpleLib "move 3 4".toList).scene =
      [circleItem ⟨100, 100⟩ 5, markerAt ⟨103, 104⟩]) ∧
    ((((Canvas.init ℚ).runCommand simpleLib "circle".toList).runCommand simpleLib
        "square".toList).runCommand simpleLib "move 3 4".toList).squarePending = true := by
  have hc : tokenize simpleLib "circle".toList = ["circle".toList] := by decide
  have hs : tokenize simpleLib "square".toList = ["square".toList] := by decide
  have hm : tokenize simpleLib "move 3 4".toList = ["move".toList, "3".toList, "4".toList] := by
    decide
  have hr : simpleLib.sqrt ((3 : ℚ) * 3 + 4 * 4) = 5 := by
    have h := simpleLib_sqrt_sq 5
    norm_num at h ⊢
    exact h
  simp only [runCommand_eq, hc, hs, hm, runTokens_circle, runTokens_square,
    runTokens_move simpleLib _ "3".toList "4".toList _ 3 4 (by rfl) (by rfl), hr]
  have e : (⟨100, 100⟩ : QPointF ℚ) + ⟨3, 4⟩ = ⟨103, 104⟩ := by
    show QPointF.mk _ _ = _
    norm_num
  simp [Canvas.init, e]

/-- C2, as amended: a pending circle is not replaced and is consumed first.
With a circle pending, `square` then `move dx dy` commits the circle about the
pending circle centre and its marker, commits no square, and leaves the
square pending with the cursor position of the `square` line as its centre.
With a square pending, `circle` then `move dx dy` commits the circle about the
cursor position of the `circle` line and leaves the square pending with its
centre unchanged. -/
theorem move_consumes_circle_first (lib : QtLib K) (c : Canvas K) (lsq lci lmv t1 t2 : QString)
    (dx dy : K) (hsq : tokenize lib lsq = ["square".toList])
    (hci : tokenize lib lci = ["circle".toList])
    (hmv : tokenize lib lmv = ["move".toList, t1, t2])
    (h1 : lib.toDouble t1 = some dx) (h2 : lib.toDouble t2 = some dy) :
    (c.circlePending = true →
      ((c.runCommand lib lsq).runCommand lib lmv).scene =
          c.scene ++ [circleItem c.pendingCircleCenter (lib.sqrt (dx * dx + dy * dy)),
            markerAt (c.pendingCircleCenter + ⟨dx, dy⟩)] ∧
        ((c.runCommand lib lsq).runCommand lib lmv).currentPos =
          c.pendingCircleCenter + ⟨dx, dy⟩ ∧
        ((c.runCommand lib lsq).runCommand lib lmv).circlePending = false ∧
        ((c.runCommand lib lsq).runCommand lib lmv).squarePending = true ∧
        ((c.runCommand lib lsq).runCommand lib lmv).pendingSquareCenter = c.currentPos) ∧
    (c.squarePending = true →
      ((c.runCommand lib lci).runCommand lib lmv).scene =
          c.scene ++ [circleItem c.currentPos (lib.sqrt (dx * dx + dy * dy)),
            markerAt (c.currentPos + ⟨dx, dy⟩)] ∧
        ((c.runCommand lib lci).runCommand lib lmv).currentPos = c.currentPos + ⟨dx, dy⟩ ∧
        ((c.runCommand lib lci).runCommand lib lmv).circlePending = false ∧
        ((c.runCommand lib lci).runCommand lib lmv).squarePending = true ∧
        ((c.runCommand lib lci).runCommand lib lmv).pendingSquareCenter =
          c.pendingSquareCenter) := by
  simp only [runCommand_eq, hsq, hci, hmv, runTokens_circle, runTokens_square,
    runTokens_move lib _ _ _ _ dx dy h1 h2]
  constructor
  · intro hp
    simp [hp]
  · intro hp
    simp [hp]

/-- C2, witness: the initial state after `circle` and `square`, where both are
pending, then `square` (respectively `circle`) and `move 3 4`: in both runs the
square is still pending after the move. -/
theorem move_consumes_circle_first_witness :
    ((Canvas.init ℚ).runCommands simpleLib ["circle".toList, "square".toList]).circlePending = true ∧
    ((Canvas.init ℚ).runCommands simpleLib ["circle".toList, "square".toList]).squarePending = true ∧
    (((((Canvas.init ℚ).runCommands simpleLib ["circle".toList, "square".toList]).runCommand
        simpleLib "square".toList).runCommand simpleLib "move 3 4".toList).squarePending = true) ∧
    (((((Canvas.init ℚ).runCommands simpleLib ["circle".toList, "square".toList]).runCommand
        simpleLib "circle".toList).runCommand simpleLib "move 3 4".toList).squarePending = true) :=
  have h := move_consumes_circle_first simpleLib
    ((Canvas.init ℚ).runCommands simpleLib ["circle".toList, "square".toList])
    "square".toList "circle".toList "move 3 4".toList "3".toList "4".toList 3 4
    (by decide) (by decide) (by decide) (by rfl) (by rfl)
  ⟨by decide, by decide, (h.1 (by decide)).2.2.2.1, (h.2 (by decide)).2.2.2.1⟩

/-! ## Arity (C3) -/

theorem runTokens_short (lib : QtLib K) (c : Canvas K) (tokens : List QString)
    (hv : tokens.head? = some "start".toList ∨ tokens.head? = some "move".toList ∨
      tokens.head? = some "line".toList ∨ tokens.head? = some "ellipse".toList)
    (hl : tokens.length < 3) : c.runTokens lib tokens = c := by
  match tokens, hl with
  | [], _ => simp [Canvas.runTokens]
  | [v], _ =>
    simp only [List.head?_cons, Option.some.injEq] at hv
    rcases hv with h | h | h | h <;> subst h <;> simp [Canvas.runTokens]
  | [v, a], _ =>
    simp only [List.head?_cons, Option.some.injEq] at hv
    rcases hv with h | h | h | h <;> subst h <;> simp [Canvas.runTokens]

theorem runTokens_take_three (lib : QtLib K) (c : Canvas K) (tokens : List QString)
    (hv : tokens.head? = some "start".toList ∨ tokens.head? = some "move".toList ∨
      tokens.head? = some "line".toList ∨ tokens.head? = some "ellipse".toList) :
    c.runTokens lib tokens = c.runTokens lib (tokens.take 3) := by
  match tokens with
  | [] => rfl
  | [v] => rfl
  | [v, a] => rfl
  | v :: a :: b :: rest =>
    simp only [List.head?_cons, Option.some.injEq] at hv
    rcases hv with h | h | h | h <;> subst h <;> simp [Canvas.runTokens]

theorem runTokens_take_two (lib : QtLib K) (c : Canvas K) (tokens : List QString)
    (hv : tokens.head? = some "circle".toList ∨ tokens.head? = some "square".toList)
    (hl : 2 ≤ tokens.length) :
    c.runTokens lib tokens = c.runTokens lib (tokens.take 2) := by
  match tokens, hl with
  | v :: a :: rest, _ =>
    simp only [List.head?_cons, Option.some.injEq] at hv
    rcases hv with h | h <;> subst h <;> simp [Canvas.runTokens]

/-- C3, counterexample: from the initial state the line `move 1 2 3` is
carried out as `move 1 2`: the cursor goes to (101,102) and a marker is
added. -/
theorem move_with_three_arguments_runs :
    ((Canvas.init ℚ).runCommand simpleLib "move 1 2 3".toList).currentPos = ⟨101, 102⟩ ∧
    ((Canvas.init ℚ).runCommand simpleLib "move 1 2 3".toList).scene = [markerAt ⟨101, 102⟩] ∧
    (Canvas.init ℚ).currentPos = ⟨100, 100⟩ ∧ (Canvas.init ℚ).scene = [] := by
  have hm : tokenize simpleLib "move 1 2 3".toList =
      ["move".toList, "1".toList, "2".toList, "3".toList] := by decide
  simp only [runCommand_eq, hm, runTokens_move simpleLib _ "1".toList "2".toList _ 1 2 (by rfl) (by rfl)]
  have e : (⟨100, 100⟩ : QPointF ℚ) + ⟨1, 2⟩ = ⟨101, 102⟩ := by
    show QPointF.mk _ _ = _
    norm_num
  simp [Canvas.init, e]

/-- C3, as amended: too few arguments are rejected, surplus arguments are
ignored. A line whose verb is `start`, `move`, `line` or `ellipse` with fewer
than two argument tokens leaves the whole state unchanged, and with any
number of argument tokens it acts as the line cut after its second argument;
a line whose verb is `circle` or `square` with one or more argument tokens
acts as the line cut after its first argument. -/
theorem arity_short_rejected_surplus_ignored (lib : QtLib K) (c : Canvas K) (cmd : QString) :
    (∀ verb ∈ ["start".toList, "move".toList, "line".toList, "ellipse".toList],
      (tokenize lib cmd).head? = some verb →
        ((tokenize lib cmd).length < 3 → c.runCommand lib cmd = c) ∧
        c.runCommand lib cmd = c.runTokens lib ((tokenize lib cmd).take 3)) ∧
    (∀ verb ∈ ["circle".toList, "square".toList],
      (tokenize lib cmd).head? = some verb → 2 ≤ (tokenize lib cmd).length →
        c.runCommand lib cmd = c.runTokens lib ((tokenize lib cmd).take 2)) := by
  rw [runCommand_eq]
  constructor
  · intro verb hmem hv
    have hv4 : (tokenize lib cmd).head? = some "start".toList ∨
        (tokenize lib cmd).head? = some "move".toList ∨
        (tokenize lib cmd).head? = some "line".toList ∨
        (tokenize lib cmd).head? = some "ellipse".toList := by
      simp only [List.mem_cons, List.mem_singleton, List.not_mem_nil, or_false] at hmem
      rcases hmem with h | h | h | h <;> subst h <;> simp [hv]
    exact ⟨runTokens_short lib c _ hv4, runTokens_take_three lib c _ hv4⟩
  · intro verb hmem hv hl
    have hv2 : (tokenize lib cmd).head? = some "circle".toList ∨
        (tokenize lib cmd).head? = some "square".toList := by
      simp only [List.mem_cons, List.mem_singleton, List.not_mem_nil, or_false] at hmem
      rcases hmem with h | h <;> subst h <;> simp [hv]
    exact runTokens_take_two lib c _ hv2 hl

/-- C3, witness: `move 1` is rejected, `move 1 2 3` acts as `move 1 2`, and
`circle 5 6` acts as `circle 5`. -/
theorem arity_short_rejected_surplus_ignored_witness :
    (Canvas.init ℚ).runCommand simpleLib "move 1".toList = Canvas.init ℚ ∧
    (Canvas.init ℚ).runCommand simpleLib "move 1 2 3".toList =
      (Canvas.init ℚ).runTokens simpleLib ["move".toList, "1".toList, "2".toList] ∧
    (Canvas.init ℚ).runCommand simpleLib "circle 5 6".toList =
      (Canvas.init ℚ).runTokens simpleLib ["circle".toList, "5".toList] :=
  ⟨((arity_short_rejected_surplus_ignored simpleLib (Canvas.init ℚ) "move 1".toList).1
      "move".toList (by decide) (by decide)).1 (by decide),
    ((arity_short_rejected_surplus_ignored simpleLib (Canvas.init ℚ) "move 1 2 3".toList).1
      "move".toList (by decide) (by decide)).2,
    (arity_short_rejected_surplus_ignored simpleLib (Canvas.init ℚ) "circle 5 6".toList).2
      "circle".toList (by decide) (by decide) (by decide)⟩

/-! ## Tokenisation (C5) -/

/-- C5, at the failing inputs: from the initial state ` move 1 1` does nothing
while `move 1 1` moves the cursor to (101,101), and `circle ` does nothing while
`circle` sets the circle pending. -/
theorem outer_whitespace_changes_effect :
    tokenize simpleLib " move 1 1".toList = ["".toList, "move".toList, "1".toList, "1".toList] ∧
    (Canvas.init ℚ).runCommand simpleLib " move 1 1".toList = Canvas.init ℚ ∧
    ((Canvas.init ℚ).runCommand simpleLib "move 1 1".toList).currentPos = ⟨101, 101⟩ ∧
    tokenize simpleLib "circle ".toList = ["circle".toList, "".toList] ∧
    (Canvas.init ℚ).runCommand simpleLib "circle ".toList = Canvas.init ℚ ∧
    ((Canvas.init ℚ).runCommand simpleLib "circle".toList).circlePending = true := by
  have h1 : tokenize simpleLib " move 1 1".toList =
      ["".toList, "move".toList, "1".toList, "1".toList] := by decide
  have h2 : tokenize simpleLib "move 1 1".toList = ["move".toList, "1".toList, "1".toList] := by
    decide
  have h3 : tokenize simpleLib "circle ".toList = ["circle".toList, "".toList] := by decide
  have h4 : tokenize simpleLib "circle".toList = ["circle".toList] := by decide
  have e : (⟨100, 100⟩ : QPointF ℚ) + ⟨1, 1⟩ = ⟨101, 101⟩ := by
    show QPointF.mk _ _ = _
    norm_num
  refine ⟨h1, ?_, ?_, h3, ?_, ?_⟩
  · rw [runCommand_eq, h1]
    rfl
  · rw [runCommand_eq, h2, runTokens_move simpleLib _ "1".toList "1".toList _ 1 1 (by rfl) (by rfl)]
    simp [Canvas.init, e]
  · rw [runCommand_eq, h3]
    rfl
  · rw [runCommand_eq, h4, runTokens_circle]

/-! ## Deferred circle and square (C6, C7) -/

/-- Over the reals, with the real square root, the square root is exact at
every non-negative number. -/
theorem sqrtExact_real (lib : QtLib ℝ) (hreal : lib.sqrt = Real.sqrt) (dx dy : ℝ) :
    SqrtExact lib (dx * dx + dy * dy) := by
  unfold SqrtExact
  rw [hreal]
  exact ⟨Real.sqrt_nonneg _,
    Real.mul_self_sqrt (add_nonneg (mul_self_nonneg dx) (mul_self_nonneg dy))⟩

theorem decimalLib_toDouble (sqrt : K → K) (t : QString) (q : ℚ)
    (h : decimalValue t = some q) : (decimalLib sqrt).toDouble t = some (q : K) := by
  simp [decimalLib, h]

/-- The deferred circle in any field, where the square root is exact at
`dx * dx + dy * dy`. -/
theorem deferred_circle_exact (lib : QtLib K) (c : Canvas K)
    (lci lmv lmv2 t1 t2 u1 u2 : QString)
    (dx dy ex ey : K) (hci : tokenize lib lci = ["circle".toList])
    (hmv : tokenize lib lmv = ["move".toList, t1, t2])
    (h1 : lib.toDouble t1 = some dx) (h2 : lib.toDouble t2 = some dy)
    (hmv2 : tokenize lib lmv2 = ["move".toList, u1, u2])
    (k1 : lib.toDouble u1 = some ex) (k2 : lib.toDouble u2 = some ey)
    (hsqrt : SqrtExact lib (dx * dx + dy * dy)) :
    ∃ r : K, r = lib.sqrt (dx * dx + dy * dy) ∧ 0 ≤ r ∧ r * r = dx * dx + dy * dy ∧
      ((c.runCommand lib lci).runCommand lib lmv).scene =
        c.scene ++ [circleItem c.currentPos r, markerAt (c.currentPos + ⟨dx, dy⟩)] ∧
      ((c.runCommand lib lci).runCommand lib lmv).currentPos = c.currentPos + ⟨dx, dy⟩ ∧
      ((c.runCommand lib lci).runCommand lib lmv).circlePending = false ∧
      (c.squarePending = false →
        (((c.runCommand lib lci).runCommand lib lmv).runCommand lib lmv2).scene =
            ((c.runCommand lib lci).runCommand lib lmv).scene ++
              [markerAt (c.currentPos + ⟨dx + ex, dy + ey⟩)] ∧
          (((c.runCommand lib lci).runCommand lib lmv).runCommand lib lmv2).currentPos =
            c.currentPos + ⟨dx + ex, dy + ey⟩ ∧
          (((c.runCommand lib lci).runCommand lib lmv).runCommand lib lmv2).circlePending =
            false ∧
          (((c.runCommand lib lci).runCommand lib lmv).runCommand lib lmv2).squarePending =
            false) := by
  refine ⟨lib.sqrt (dx * dx + dy * dy), rfl, hsqrt.1, hsqrt.2, ?_⟩
  simp only [runCommand_eq, hci, hmv, hmv2, runTokens_circle,
    runTokens_move lib _ _ _ _ dx dy h1 h2, runTokens_move lib _ _ _ _ ex ey k1 k2]
  refine ⟨by simp, by simp, by simp, ?_⟩
  intro hsq
  simp [hsq, add_add_mk]

/-- The deferred square in any field, where the square root is exact at
`dx * dx + dy * dy`. -/
theorem deferred_square_exact (lib : QtLib K) (c : Canvas K) (lsq lmv t1 t2 : QString)
    (dx dy : K) (hnc : c.circlePending = false) (hsq : tokenize lib lsq = ["square".toList])
    (hmv : tokenize lib lmv = ["move".toList, t1, t2])
    (h1 : lib.toDouble t1 = some dx) (h2 : lib.toDouble t2 = some dy)
    (hsqrt : SqrtExact lib (dx * dx + dy * dy)) :
    (c.runCommand lib lsq).scene = c.scene ∧
    (c.runCommand lib lsq).currentPos = c.currentPos ∧
    ∃ s : K, s = lib.sqrt (dx * dx + dy * dy) * 2 ∧ 0 ≤ s ∧
      s * s = 4 * (dx * dx + dy * dy) ∧
      ((c.runCommand lib lsq).runCommand lib lmv).scene =
        c.scene ++
          [⟨Shape.rect ⟨c.currentPos.x - s / 2, c.currentPos.y - s / 2, s, s⟩,
              Color.black, none, 0⟩,
            markerAt (c.currentPos + ⟨dx, dy⟩)] ∧
      ((c.runCommand lib lsq).runCommand lib lmv).currentPos = c.currentPos + ⟨dx, dy⟩ ∧
      ((c.runCommand lib lsq).runCommand lib lmv).circlePending = false ∧
      ((c.runCommand lib lsq).runCommand lib lmv).squarePending = false := by
  simp only [runCommand_eq, hsq, hmv, runTokens_square,
    runTokens_move lib _ _ _ _ dx dy h1 h2]
  refine ⟨trivial, trivial, lib.sqrt (dx * dx + dy * dy) * 2, rfl, ?_, ?_, ?_⟩
  · have := hsqrt.1
    linarith
  · have := hsqrt.2
    linear_combination 4 * this
  · simp [hnc, squareItem]

/-- The deferred circle run on rationals: from the initial state `circle`,
`move 30 40` draws the circle of radius 50 about (100,100) and the marker at
(130,140). -/
theorem deferred_circle_example :
    (((Canvas.init ℚ).runCommand simpleLib "circle".toList).runCommand simpleLib
        "move 30 40".toList).scene = [circleItem ⟨100, 100⟩ 50, markerAt ⟨130, 140⟩] := by
  have hr : simpleLib.sqrt (30 * 30 + 40 * 40) = 50 := by
    have h := simpleLib_sqrt_sq 50
    norm_num at h ⊢
    exact h
  have hs : SqrtExact simpleLib (30 * 30 + 40 * 40) := by
    unfold SqrtExact
    rw [hr]
    norm_num
  obtain ⟨r, e, -, -, h, -⟩ := deferred_circle_exact simpleLib (Canvas.init ℚ) "circle".toList
    "move 30 40".toList "move 1 1".toList "30".toList "40".toList "1".toList "1".toList
    30 40 1 1 (by decide) (by decide) (by rfl) (by rfl) (by decide) (by rfl) (by rfl) hs
  rw [h, e, hr]
  have e2 : (⟨100, 100⟩ : QPointF ℚ) + ⟨30, 40⟩ = ⟨130, 140⟩ := by
    show QPointF.mk _ _ = _
    norm_num
  simp [Canvas.init, e2]

/-- C6: over the reals with the real square root, for every state and all
numeric `dx`, `dy`, `circle` then `move dx dy` appends one circle about the old
cursor position whose radius `r` has `0 ≤ r` and `r * r = dx * dx + dy * dy`,
then one marker at the new position, moves the cursor there and clears the
circle flag; if no square was pending before, a following `move ex ey` appends
only a marker and moves the cursor on by `(ex, ey)`, with nothing pending. -/
theorem deferred_circle (lib : QtLib ℝ) (hreal : lib.sqrt = Real.sqrt) (c : Canvas ℝ)
    (lci lmv lmv2 t1 t2 u1 u2 : QString)
    (dx dy ex ey : ℝ) (hci : tokenize lib lci = ["circle".toList])
    (hmv : tokenize lib lmv = ["move".toList, t1, t2])
    (h1 : lib.toDouble t1 = some dx) (h2 : lib.toDouble t2 = some dy)
    (hmv2 : tokenize lib lmv2 = ["move".toList, u1, u2])
    (k1 : lib.toDouble u1 = some ex) (k2 : lib.toDouble u2 = some ey) :
    ∃ r : ℝ, r = Real.sqrt (dx * dx + dy * dy) ∧ 0 ≤ r ∧ r * r = dx * dx + dy * dy ∧
      ((c.runCommand lib lci).runCommand lib lmv).scene =
        c.scene ++ [circleItem c.currentPos r, markerAt (c.currentPos + ⟨dx, dy⟩)] ∧
      ((c.runCommand lib lci).runCommand lib lmv).currentPos = c.currentPos + ⟨dx, dy⟩ ∧
      ((c.runCommand lib lci).runCommand lib lmv).circlePending = false ∧
      (c.squarePending = false →
        (((c.runCommand lib lci).runCommand lib lmv).runCommand lib lmv2).scene =
            ((c.runCommand lib lci).runCommand lib lmv).scene ++
              [markerAt (c.currentPos + ⟨dx + ex, dy + ey⟩)] ∧
          (((c.runCommand lib lci).runCommand lib lmv).runCommand lib lmv2).currentPos =
            c.currentPos + ⟨dx + ex, dy + ey⟩ ∧
          (((c.runCommand lib lci).runCommand lib lmv).runCommand lib lmv2).circlePending =
            false ∧
          (((c.runCommand lib lci).runCommand lib lmv).runCommand lib lmv2).squarePending =
            false) := by
  have h := deferred_circle_exact lib c lci lmv lmv2 t1 t2 u1 u2 dx dy ex ey hci hmv h1 h2
    hmv2 k1 k2 (sqrtExact_real lib hreal dx dy)
  rw [hreal] at h
  exact h

/-- C6, witness: over the reals, the initial state with `circle`, `move 30 40`,
`move 1 1`; the radius is 50. -/
theorem deferred_circle_witness :
    ∃ r : ℝ, r = 50 ∧ 0 ≤ r ∧ r * r = 30 * 30 + 40 * 40 ∧
      (((Canvas.init ℝ).runCommand (decimalLib Real.sqrt) "circle".toList).runCommand
          (decimalLib Real.sqrt) "move 30 40".toList).scene =
        (Canvas.init ℝ).scene ++
          [circleItem (Canvas.init ℝ).currentPos r,
            markerAt ((Canvas.init ℝ).currentPos + ⟨30, 40⟩)] := by
  have h30 : (decimalLib Real.sqrt).toDouble "30".toList = some (30 : ℝ) := by
    have h := decimalLib_toDouble Real.sqrt "30".toList 30 (by rfl)
    norm_num at h
    exact h
  have h40 : (decimalLib Real.sqrt).toDouble "40".toList = some (40 : ℝ) := by
    have h := decimalLib_toDouble Real.sqrt "40".toList 40 (by rfl)
    norm_num at h
    exact h
  have h1 : (decimalLib Real.sqrt).toDouble "1".toList = some (1 : ℝ) := by
    have h := decimalLib_toDouble Real.sqrt "1".toList 1 (by rfl)
    norm_num at h
    exact h
  have hr : Real.sqrt (30 * 30 + 40 * 40) = 50 := by
    rw [show (30 : ℝ) * 30 + 40 * 40 = 50 ^ 2 by norm_num]
    exact Real.sqrt_sq (by norm_num)
  obtain ⟨r, e, hh⟩ := deferred_circle (decimalLib Real.sqrt) rfl (Canvas.init ℝ)
    "circle".toList "move 30 40".toList "move 1 1".toList "30".toList "40".toList
    "1".toList "1".toList 30 40 1 1 (by decide) (by decide) h30 h40 (by decide) h1 h1
  exact ⟨r, e.trans hr, hh.1, hh.2.1, hh.2.2.1⟩

/-- C7: over the reals with the real square root, for every state with no
circle pending and all numeric `dx`, `dy`, the `square` line appends nothing
and leaves the cursor, and `square` then `move dx dy` appends one square about
the old cursor position whose side `s` has `0 ≤ s` and
`s * s = 4 * (dx * dx + dy * dy)` (corner at the centre minus `(s/2, s/2)`,
width and height `s`), then one marker at the new position, moves the cursor
there and leaves nothing pending. -/
theorem deferred_square (lib : QtLib ℝ) (hreal : lib.sqrt = Real.sqrt) (c : Canvas ℝ)
    (lsq lmv t1 t2 : QString) (dx dy : ℝ)
    (hnc : c.circlePending = false) (hsq : tokenize lib lsq = ["square".toList])
    (hmv : tokenize lib lmv = ["move".toList, t1, t2])
    (h1 : lib.toDouble t1 = some dx) (h2 : lib.toDouble t2 = some dy) :
    (c.runCommand lib lsq).scene = c.scene ∧
    (c.runCommand lib lsq).currentPos = c.currentPos ∧
    ∃ s : ℝ, s = Real.sqrt (dx * dx + dy * dy) * 2 ∧ 0 ≤ s ∧
      s * s = 4 * (dx * dx + dy * dy) ∧
      ((c.runCommand lib lsq).runCommand lib lmv).scene =
        c.scene ++
          [⟨Shape.rect ⟨c.currentPos.x - s / 2, c.currentPos.y - s / 2, s, s⟩,
              Color.black, none, 0⟩,
            markerAt (c.currentPos + ⟨dx, dy⟩)] ∧
      ((c.runCommand lib lsq).runCommand lib lmv).currentPos = c.currentPos + ⟨dx, dy⟩ ∧
      ((c.runCommand lib lsq).runCommand lib lmv).circlePending = false ∧
      ((c.runCommand lib lsq).runCommand lib lmv).squarePending = false := by
  have h := deferred_square_exact lib c lsq lmv t1 t2 dx dy hnc hsq hmv h1 h2
    (sqrtExact_real lib hreal dx dy)
  rw [hreal] at h
  exact h

/-- C7, witness: over the reals, the initial state with `square`, `move 3 4`;
the side is 10. -/
theorem deferred_square_witness :
    (Canvas.init ℝ).circlePending = false ∧
    ∃ s : ℝ, s = 10 ∧
      (((Canvas.init ℝ).runCommand (decimalLib Real.sqrt) "square".toList).runCommand
          (decimalLib Real.sqrt) "move 3 4".toList).scene =
        (Canvas.init ℝ).scene ++
          [⟨Shape.rect ⟨(Canvas.init ℝ).currentPos.x - s / 2,
              (Canvas.init ℝ).currentPos.y - s / 2, s, s⟩, Color.black, none, 0⟩,
            markerAt ((Canvas.init ℝ).currentPos + ⟨3, 4⟩)] := by
  have h3 : (decimalLib Real.sqrt).toDouble "3".toList = some (3 : ℝ) := by
    have h := decimalLib_toDouble Real.sqrt "3".toList 3 (by rfl)
    norm_num at h
    exact h
  have h4 : (decimalLib Real.sqrt).toDouble "4".toList = some (4 : ℝ) := by
    have h := decimalLib_toDouble Real.sqrt "4".toList 4 (by rfl)
    norm_num at h
    exact h
  have hr : Real.sqrt (3 * 3 + 4 * 4) * 2 = 10 := by
    rw [show (3 : ℝ) * 3 + 4 * 4 = 5 ^ 2 by norm_num, Real.sqrt_sq (by norm_num)]
    norm_num
  obtain ⟨-, -, s, e, hh⟩ := deferred_square (decimalLib Real.sqrt) rfl (Canvas.init ℝ)
    "square".toList "move 3 4".toList "3".toList "4".toList 3 4 rfl (by decide) (by decide)
    h3 h4
  exact ⟨rfl, s, e.trans hr, hh.2.2.1⟩

/-! ## Further lemmas on the command interpreter -/

theorem runTokens_start (lib : QtLib K) (c : Canvas K) (t1 t2 : QString) (rest : List QString)
    (x y : K) (h1 : lib.toDouble (remove 'x' t1) = some x)
    (h2 : lib.toDouble (remove 'y' t2) = some y) :
    c.runTokens lib ("start".toList :: t1 :: t2 :: rest) =
      { c with
        scene := c.scene ++ [markerAt ⟨x, y⟩]
        currentPos := ⟨x, y⟩
        circlePending := false
        squarePending := false } := by
  simp [Canvas.runTokens, h1, h2, drawMarker_eq]

theorem runTokens_line (lib : QtLib K) (c : Canvas K) (t1 t2 : QString) (rest : List QString)
    (dx dy : K) (h1 : lib.toDouble t1 = some dx) (h2 : lib.toDouble t2 = some dy) :
    c.runTokens lib ("line".toList :: t1 :: t2 :: rest) =
      { c with
        scene := c.scene ++
          [lineItem c.currentPos (c.currentPos + ⟨dx, dy⟩), markerAt (c.currentPos + ⟨dx, dy⟩)]
        currentPos := c.currentPos + ⟨dx, dy⟩ } := by
  simp [Canvas.runTokens, h1, h2, drawMarker_eq, Canvas.addItem, lineItem]

theorem runTokens_ellipse (lib : QtLib K) (c : Canvas K) (t1 t2 : QString)
    (rest : List QString) (rx ry : K) (h1 : lib.toDouble t1 = some rx)
    (h2 : lib.toDouble t2 = some ry) :
    c.runTokens lib ("ellipse".toList :: t1 :: t2 :: rest) =
      { c with scene := c.scene ++ [ellipseItem c.currentPos rx ry, markerAt c.currentPos] } := by
  simp [Canvas.runTokens, h1, h2, drawMarker_eq, Canvas.addItem, ellipseItem]

theorem runTokens_circle_arg (lib : QtLib K) (c : Canvas K) (t1 : QString)
    (rest : List QString) (r : K) (h1 : lib.toDouble t1 = some r) :
    c.runTokens lib ("circle".toList :: t1 :: rest) =
      { c with
        scene := c.scene ++ [circleItem c.currentPos r, markerAt c.currentPos]
        lastRadius := r } := by
  simp [Canvas.runTokens, h1, drawMarker_eq, Canvas.addItem, circleItem]

theorem runTokens_square_arg (lib : QtLib K) (c : Canvas K) (t1 : QString)
    (rest : List QString) (s : K) (h1 : lib.toDouble t1 = some s) :
    c.runTokens lib ("square".toList :: t1 :: rest) =
      { c with
        scene := c.scene ++ [squareItem c.currentPos s, markerAt c.currentPos]
        lastSize := s } := by
  simp [Canvas.runTokens, h1, drawMarker_eq, Canvas.addItem, squareItem]

omit [LinearOrderedField K] in
theorem parsePoint_of_pointToken (lib : QtLib K) (tok : QString) (p : QPointF K)
    (h : PointToken lib tok p) : parsePoint lib tok = some p := by
  obtain ⟨xs, ys, hs, hx, hy⟩ := h
  simp [parsePoint, hs, hx, hy]

omit [LinearOrderedField K] in
theorem parsePoint_eq_none (lib : QtLib K) (tok : QString)
    (h : ∀ p, ¬ PointToken lib tok p) : parsePoint lib tok = none := by
  cases hp : parsePoint lib tok with
  | none => rfl
  | some p =>
    exfalso
    refine h p ?_
    unfold parsePoint at hp
    simp only at hp
    split_ifs at hp with hl
    have hl2 : (splitChar ',' tok).length = 2 := not_not.mp hl
    match hs : splitChar ',' tok, hl2 with
    | [xs, ys], _ =>
      rw [hs] at hp
      simp only [List.getD_cons_zero, List.getD_cons_succ] at hp
      split at hp
      · rename_i x y hx hy
        cases hp
        exact ⟨xs, ys, hs, hx, hy⟩
      · cases hp

theorem runTokens_bezier (lib : QtLib K) (c : Canvas K) (a b d e : QString)
    (A B D E : QPointF K) (ha : parsePoint lib a = some A) (hb : parsePoint lib b = some B)
    (hd : parsePoint lib d = some D) (he : parsePoint lib e = some E) :
    c.runTokens lib ["bezier".toList, a, b, d, e] =
      { c with scene := c.scene ++ [cubicItem A B D E] } := by
  simp [Canvas.runTokens, ha, hb, hd, he, Canvas.addItem, cubicItem]

theorem runTokens_bezier_rejected (lib : QtLib K) (c : Canvas K) (tokens : List QString)
    (hv : tokens.getD 0 [] = "bezier".toList)
    (h : tokens.length ≠ 5 ∨ ∃ i ∈ [1, 2, 3, 4], parsePoint lib (tokens.getD i []) = none) :
    c.runTokens lib tokens = c := by
  have e1 : ¬ ("bezier".toList = "start".toList) := by decide
  have e2 : ¬ ("bezier".toList = "move".toList) := by decide
  have e3 : ¬ ("bezier".toList = "circle".toList) := by decide
  have e4 : ¬ ("bezier".toList = "square".toList) := by decide
  have e5 : ¬ ("bezier".toList = "line".toList) := by decide
  have e6 : ¬ ("bezier".toList = "ellipse".toList) := by decide
  unfold Canvas.runTokens
  simp only [hv, e1, e2, e3, e4, e5, e6, false_and, true_and, if_false]
  split_ifs with h0 h5
  · rfl
  · rcases h with h | ⟨i, hi, h⟩
    · exact absurd h5 h
    · simp only [List.mem_cons, List.mem_singleton, List.not_mem_nil, or_false] at hi
      split
      · rcases hi with rfl | rfl | rfl | rfl <;> simp_all
      · rfl
  · rfl

theorem runTokens_unknown_verb (lib : QtLib K) (c : Canvas K) (tokens : List QString)
    (hv : tokens.getD 0 [] ∉ verbs) : c.runTokens lib tokens = c := by
  simp only [verbs, List.mem_cons, List.mem_singleton, List.not_mem_nil, or_false, not_or] at hv
  obtain ⟨h1, h2, h3, h4, h5, h6, h7⟩ := hv
  simp only [Canvas.runTokens, h1, h2, h3, h4, h5, h6, h7, false_and, if_false, ite_self]

theorem runTokens_start_rejected (lib : QtLib K) (c : Canvas K) (tokens : List QString)
    (hv : tokens.getD 0 [] = "start".toList)
    (h : lib.toDouble (remove 'x' (tokens.getD 1 [])) = none ∨
      lib.toDouble (remove 'y' (tokens.getD 2 [])) = none) :
    c.runTokens lib tokens = c := by
  unfold Canvas.runTokens
  simp only [hv]
  rcases h with h | h
  · simp [-List.getD_eq_getElem?_getD, h]
  · cases h1 : lib.toDouble (remove 'x' (tokens.getD 1 [])) <;> simp [-List.getD_eq_getElem?_getD, h]

theorem runTokens_two_rejected (lib : QtLib K) (c : Canvas K) (tokens : List QString)
    (hv : tokens.getD 0 [] = "move".toList ∨ tokens.getD 0 [] = "line".toList ∨
      tokens.getD 0 [] = "ellipse".toList)
    (h : lib.toDouble (tokens.getD 1 []) = none ∨ lib.toDouble (tokens.getD 2 []) = none) :
    c.runTokens lib tokens = c := by
  unfold Canvas.runTokens
  rcases hv with hv | hv | hv <;> simp only [hv] <;> rcases h with h | h
  all_goals simp [-List.getD_eq_getElem?_getD, h]

theorem runTokens_one_rejected (lib : QtLib K) (c : Canvas K) (tokens : List QString)
    (hv : tokens.getD 0 [] = "circle".toList ∨ tokens.getD 0 [] = "square".toList)
    (hl : tokens.length ≠ 1) (h : lib.toDouble (tokens.getD 1 []) = none) :
    c.runTokens lib tokens = c := by
  unfold Canvas.runTokens
  rcases hv with hv | hv <;> simp [-List.getD_eq_getElem?_getD, hv, hl, h]

/-! ## The `start` and `line` commands (C12, C13) -/

/-- C12: for every state and every line that tokenises to `start t1 t2`, where
`t1` with every `x` removed parses to `X` and `t2` with every `y` removed
parses to `Y`, `runCommand` sets the cursor to `(X, Y)`, clears both pending
flags and appends exactly one item, the marker at `(X, Y)`. -/
theorem start_command (lib : QtLib K) (c : Canvas K) (cmd t1 t2 : QString) (X Y : K)
    (htok : tokenize lib cmd = ["start".toList, t1, t2])
    (h1 : lib.toDouble (remove 'x' t1) = some X)
    (h2 : lib.toDouble (remove 'y' t2) = some Y) :
    (c.runCommand lib cmd).currentPos = ⟨X, Y⟩ ∧
    (c.runCommand lib cmd).circlePending = false ∧
    (c.runCommand lib cmd).squarePending = false ∧
    (c.runCommand lib cmd).scene = c.scene ++ [markerAt ⟨X, Y⟩] := by
  rw [runCommand_eq, htok, runTokens_start lib c t1 t2 [] X Y h1 h2]
  exact ⟨rfl, rfl, rfl, rfl⟩

/-- C12, witness: the line `start 100x 200y` in the initial state. -/
theorem start_command_witness :
    ((Canvas.init ℚ).runCommand simpleLib "start 100x 200y".toList).currentPos = ⟨100, 200⟩ ∧
    ((Canvas.init ℚ).runCommand simpleLib "start 100x 200y".toList).circlePending = false ∧
    ((Canvas.init ℚ).runCommand simpleLib "start 100x 200y".toList).squarePending = false ∧
    ((Canvas.init ℚ).runCommand simpleLib "start 100x 200y".toList).scene =
      (Canvas.init ℚ).scene ++ [markerAt ⟨100, 200⟩] :=
  start_command simpleLib (Canvas.init ℚ) "start 100x 200y".toList "100x".toList
    "200y".toList 100 200 (by decide) (by rfl) (by rfl)

/-- C13: for every state and every line that tokenises to `line t1 t2` with
`t1`, `t2` parsing to `dx`, `dy`, `runCommand` appends exactly two items, the
line from the cursor to the cursor plus `(dx, dy)` and then the marker at that
end point, moves the cursor there and leaves the pending flags and centres
as they were. -/
theorem line_command (lib : QtLib K) (c : Canvas K) (cmd t1 t2 : QString) (dx dy : K)
    (htok : tokenize lib cmd = ["line".toList, t1, t2])
    (h1 : lib.toDouble t1 = some dx) (h2 : lib.toDouble t2 = some dy) :
    (c.runCommand lib cmd).scene =
      c.scene ++ [lineItem c.currentPos (c.currentPos + ⟨dx, dy⟩),
        markerAt (c.currentPos + ⟨dx, dy⟩)] ∧
    (c.runCommand lib cmd).currentPos = c.currentPos + ⟨dx, dy⟩ ∧
    (c.runCommand lib cmd).circlePending = c.circlePending ∧
    (c.runCommand lib cmd).squarePending = c.squarePending ∧
    (c.runCommand lib cmd).pendingCircleCenter = c.pendingCircleCenter ∧
    (c.runCommand lib cmd).pendingSquareCenter = c.pendingSquareCenter := by
  rw [runCommand_eq, htok, runTokens_line lib c t1 t2 [] dx dy h1 h2]
  exact ⟨rfl, rfl, rfl, rfl, rfl, rfl⟩

/-- C13, witness: after `start 100x 200y` the line `line 10 0` draws the line
from (100,200) to (110,200) and leaves the cursor at (110,200). -/
theorem line_command_witness :
    (((Canvas.init ℚ).runCommand simpleLib "start 100x 200y".toList).runCommand simpleLib
        "line 10 0".toList).scene =
      [markerAt ⟨100, 200⟩, lineItem ⟨100, 200⟩ ⟨110, 200⟩, markerAt ⟨110, 200⟩] ∧
    (((Canvas.init ℚ).runCommand simpleLib "start 100x 200y".toList).runCommand simpleLib
        "line 10 0".toList).currentPos = ⟨110, 200⟩ := by
  have hs : tokenize simpleLib "start 100x 200y".toList =
      ["start".toList, "100x".toList, "200y".toList] := by decide
  have hc : (Canvas.init ℚ).runCommand simpleLib "start 100x 200y".toList =
      { Canvas.init ℚ with
        scene := [markerAt ⟨100, 200⟩]
        currentPos := ⟨100, 200⟩ } := by
    rw [runCommand_eq, hs, runTokens_start simpleLib _ "100x".toList "200y".toList [] 100 200
      (by rfl) (by rfl)]
    rfl
  have e : (⟨100, 200⟩ : QPointF ℚ) + ⟨10, 0⟩ = ⟨110, 200⟩ := by
    show QPointF.mk _ _ = _
    norm_num
  obtain ⟨h1, h2, -⟩ := line_command simpleLib
    ((Canvas.init ℚ).runCommand simpleLib "start 100x 200y".toList) "line 10 0".toList
    "10".toList "0".toList 10 0 (by decide) (by rfl) (by rfl)
  rw [h1, h2, hc]
  simp [e]

/-! ## The `bezier` command (C14) -/

/-- C14: a line that tokenises to `bezier a b d e`, each token of the form
`x,y` with numeric parts, appends exactly one cubic path with control points
`A`, `B`, `D`, `E` in that order and changes nothing else (no marker, cursor
and pending operation as they were); a line whose verb is `bezier` with a
token count other than five, or with one of its four point tokens not of that
form, leaves the whole state unchanged. -/
theorem bezier_command (lib : QtLib K) (c : Canvas K) (cmd : QString) :
    (∀ (a b d e : QString) (A B D E : QPointF K),
      tokenize lib cmd = ["bezier".toList, a, b, d, e] →
      PointToken lib a A → PointToken lib b B → PointToken lib d D → PointToken lib e E →
      c.runCommand lib cmd = { c with scene := c.scene ++ [cubicItem A B D E] }) ∧
    ((tokenize lib cmd).head? = some "bezier".toList →
      ((tokenize lib cmd).length ≠ 5 ∨
        ∃ i ∈ [1, 2, 3, 4], ∀ p, ¬ PointToken lib ((tokenize lib cmd).getD i []) p) →
      c.runCommand lib cmd = c) := by
  rw [runCommand_eq]
  constructor
  · intro a b d e A B D E htok ha hb hd he
    rw [htok]
    exact runTokens_bezier lib c a b d e A B D E (parsePoint_of_pointToken lib a A ha)
      (parsePoint_of_pointToken lib b B hb) (parsePoint_of_pointToken lib d D hd)
      (parsePoint_of_pointToken lib e E he)
  · intro hv h
    refine runTokens_bezier_rejected lib c _ ?_ ?_
    · cases ht : tokenize lib cmd with
      | nil => rw [ht] at hv; cases hv
      | cons v rest =>
        rw [ht] at hv
        simpa using hv
    · rcases h with h | ⟨i, hi, h⟩
      · exact Or.inl h
      · exact Or.inr ⟨i, hi, parsePoint_eq_none lib _ h⟩

/-- C14, witness: in the initial state `bezier 0,0 10,0 10,10 0,10` adds the
path, and `bezier 0,0 10,0 10,10` (three points) changes nothing. -/
theorem bezier_command_witness :
    (Canvas.init ℚ).runCommand simpleLib "bezier 0,0 10,0 10,10 0,10".toList =
      { Canvas.init ℚ with
        scene := (Canvas.init ℚ).scene ++ [cubicItem ⟨0, 0⟩ ⟨10, 0⟩ ⟨10, 10⟩ ⟨0, 10⟩] } ∧
    (Canvas.init ℚ).runCommand simpleLib "bezier 0,0 10,0 10,10".toList = Canvas.init ℚ :=
  ⟨(bezier_command simpleLib (Canvas.init ℚ) "bezier 0,0 10,0 10,10 0,10".toList).1
      "0,0".toList "10,0".toList "10,10".toList "0,10".toList ⟨0, 0⟩ ⟨10, 0⟩ ⟨10, 10⟩ ⟨0, 10⟩
      (by decide) ⟨"0".toList, "0".toList, by decide, by rfl, by rfl⟩
      ⟨"10".toList, "0".toList, by decide, by rfl, by rfl⟩
      ⟨"10".toList, "10".toList, by decide, by rfl, by rfl⟩
      ⟨"0".toList, "10".toList, by decide, by rfl, by rfl⟩,
    (bezier_command simpleLib (Canvas.init ℚ) "bezier 0,0 10,0 10,10".toList).2
      (by decide) (Or.inl (by decide))⟩

/-! ## Immediate shapes (C15) -/

/-- C15: for every state with cursor `c.currentPos`, a line `circle R` appends
the ellipse with bounding box `(x - R, y - R, 2R, 2R)`, a line `square S` the
rectangle `(x - S/2, y - S/2, S, S)`, a line `ellipse RX RY` the ellipse with
bounding box `(x - RX, y - RY, 2RX, 2RY)`; each then appends one marker at the
cursor, and each leaves the cursor, both pending flags and both pending
centres exactly as they were. -/
theorem immediate_shapes (lib : QtLib K) (c : Canvas K) (cmd : QString) :
    (∀ (t : QString) (R : K), tokenize lib cmd = ["circle".toList, t] →
      lib.toDouble t = some R →
      (c.runCommand lib cmd).scene =
          c.scene ++
            [⟨Shape.ellipse ⟨c.currentPos.x - R, c.currentPos.y - R, 2 * R, 2 * R⟩,
                Color.blue, none, 0⟩,
              markerAt c.currentPos] ∧
        (c.runCommand lib cmd).currentPos = c.currentPos ∧
        (c.runCommand lib cmd).circlePending = c.circlePending ∧
        (c.runCommand lib cmd).squarePending = c.squarePending ∧
        (c.runCommand lib cmd).pendingCircleCenter = c.pendingCircleCenter ∧
        (c.runCommand lib cmd).pendingSquareCenter = c.pendingSquareCenter) ∧
    (∀ (t : QString) (S : K), tokenize lib cmd = ["square".toList, t] →
      lib.toDouble t = some S →
      (c.runCommand lib cmd).scene =
          c.scene ++
            [⟨Shape.rect ⟨c.currentPos.x - S / 2, c.currentPos.y - S / 2, S, S⟩,
                Color.black, none, 0⟩,
              markerAt c.currentPos] ∧
        (c.runCommand lib cmd).currentPos = c.currentPos ∧
        (c.runCommand lib cmd).circlePending = c.circlePending ∧
        (c.runCommand lib cmd).squarePending = c.squarePending ∧
        (c.runCommand lib cmd).pendingCircleCenter = c.pendingCircleCenter ∧
        (c.runCommand lib cmd).pendingSquareCenter = c.pendingSquareCenter) ∧
    (∀ (t1 t2 : QString) (RX RY : K), tokenize lib cmd = ["ellipse".toList, t1, t2] →
      lib.toDouble t1 = some RX → lib.toDouble t2 = some RY →
      (c.runCommand lib cmd).scene =
          c.scene ++
            [⟨Shape.ellipse ⟨c.currentPos.x - RX, c.currentPos.y - RY, 2 * RX, 2 * RY⟩,
                Color.darkGreen, none, 0⟩,
              markerAt c.currentPos] ∧
        (c.runCommand lib cmd).currentPos = c.currentPos ∧
        (c.runCommand lib cmd).circlePending = c.circlePending ∧
        (c.runCommand lib cmd).squarePending = c.squarePending ∧
        (c.runCommand lib cmd).pendingCircleCenter = c.pendingCircleCenter ∧
        (c.runCommand lib cmd).pendingSquareCenter = c.pendingSquareCenter) := by
  rw [runCommand_eq]
  refine ⟨?_, ?_, ?_⟩
  · intro t R htok h
    rw [htok, runTokens_circle_arg lib c t [] R h]
    exact ⟨rfl, rfl, rfl, rfl, rfl, rfl⟩
  · intro t S htok h
    rw [htok, runTokens_square_arg lib c t [] S h]
    exact ⟨rfl, rfl, rfl, rfl, rfl, rfl⟩
  · intro t1 t2 RX RY htok h1 h2
    rw [htok, runTokens_ellipse lib c t1 t2 [] RX RY h1 h2]
    exact ⟨rfl, rfl, rfl, rfl, rfl, rfl⟩

/-- C15, witness: in the initial state, cursor (100,100), the lines `circle 5`,
`square 10` and `ellipse 3 4` leave the cursor where it was. -/
theorem immediate_shapes_witness :
    ((Canvas.init ℚ).runCommand simpleLib "circle 5".toList).currentPos =
      (Canvas.init ℚ).currentPos ∧
    ((Canvas.init ℚ).runCommand simpleLib "square 10".toList).currentPos =
      (Canvas.init ℚ).currentPos ∧
    ((Canvas.init ℚ).runCommand simpleLib "ellipse 3 4".toList).scene =
      (Canvas.init ℚ).scene ++
        [⟨Shape.ellipse ⟨(Canvas.init ℚ).currentPos.x - 3, (Canvas.init ℚ).currentPos.y - 4,
            2 * 3, 2 * 4⟩, Color.darkGreen, none, 0⟩,
          markerAt (Canvas.init ℚ).currentPos] :=
  ⟨((immediate_shapes simpleLib (Canvas.init ℚ) "circle 5".toList).1 "5".toList 5
      (by decide) (by rfl)).2.1,
    ((immediate_shapes simpleLib (Canvas.init ℚ) "square 10".toList).2.1 "10".toList 10
      (by decide) (by rfl)).2.1,
    ((immediate_shapes simpleLib (Canvas.init ℚ) "ellipse 3 4".toList).2.2 "3".toList
      "4".toList 3 4 (by decide) (by rfl) (by rfl)).1⟩

/-! ## Rejected input (C16) -/

/-- C16: for every state, a line that is empty after lower-casing, a line
whose first token is not a verb, and a line whose verb is known but one of
whose required numeric arguments does not parse (after removal of the `x` or
`y` marker for `start`; a point token not of the form `x,y` for `bezier`)
leave the whole state unchanged: cursor, pending flags and centres, scene. -/
theorem rejected_input_unchanged (lib : QtLib K) (c : Canvas K) (cmd : QString) :
    (lib.toLower cmd = [] → c.runCommand lib cmd = c) ∧
    ((tokenize lib cmd).getD 0 [] ∉ verbs → c.runCommand lib cmd = c) ∧
    ((tokenize lib cmd).getD 0 [] = "start".toList →
      (lib.toDouble (remove 'x' ((tokenize lib cmd).getD 1 [])) = none ∨
        lib.toDouble (remove 'y' ((tokenize lib cmd).getD 2 [])) = none) →
      c.runCommand lib cmd = c) ∧
    ((tokenize lib cmd).getD 0 [] ∈ ["move".toList, "line".toList, "ellipse".toList] →
      (lib.toDouble ((tokenize lib cmd).getD 1 []) = none ∨
        lib.toDouble ((tokenize lib cmd).getD 2 []) = none) →
      c.runCommand lib cmd = c) ∧
    ((tokenize lib cmd).getD 0 [] ∈ ["circle".toList, "square".toList] →
      (tokenize lib cmd).length ≠ 1 → lib.toDouble ((tokenize lib cmd).getD 1 []) = none →
      c.runCommand lib cmd = c) ∧
    ((tokenize lib cmd).getD 0 [] = "bezier".toList →
      (∃ i ∈ [1, 2, 3, 4], ∀ p, ¬ PointToken lib ((tokenize lib cmd).getD i []) p) →
      c.runCommand lib cmd = c) := by
  rw [runCommand_eq]
  refine ⟨?_, ?_, ?_, ?_, ?_, ?_⟩
  · intro he
    have ht : tokenize lib cmd = [[]] := by
      unfold tokenize
      rw [he]
      rfl
    rw [ht]
    exact runTokens_unknown_verb lib c _ (by decide)
  · exact runTokens_unknown_verb lib c _
  · exact runTokens_start_rejected lib c _
  · intro hv
    refine runTokens_two_rejected lib c _ ?_
    simpa using hv
  · intro hv
    refine runTokens_one_rejected lib c _ ?_
    simpa using hv
  · rintro hv ⟨i, hi, h⟩
    exact runTokens_bezier_rejected lib c _ hv (Or.inr ⟨i, hi, parsePoint_eq_none lib _ h⟩)

/-- C16, witness: in the initial state the empty line, `foo bar baz`,
`start 1x zy`, `move 1 a`, `circle r` and `bezier 0,0 1,1 2 3,3` change
nothing. -/
theorem rejected_input_unchanged_witness :
    (Canvas.init ℚ).runCommand simpleLib "".toList = Canvas.init ℚ ∧
    (Canvas.init ℚ).runCommand simpleLib "foo bar baz".toList = Canvas.init ℚ ∧
    (Canvas.init ℚ).runCommand simpleLib "start 1x zy".toList = Canvas.init ℚ ∧
    (Canvas.init ℚ).runCommand simpleLib "move 1 a".toList = Canvas.init ℚ ∧
    (Canvas.init ℚ).runCommand simpleLib "circle r".toList = Canvas.init ℚ ∧
    (Canvas.init ℚ).runCommand simpleLib "bezier 0,0 1,1 2 3,3".toList = Canvas.init ℚ :=
  ⟨(rejected_input_unchanged simpleLib (Canvas.init ℚ) "".toList).1 (by decide),
    (rejected_input_unchanged simpleLib (Canvas.init ℚ) "foo bar baz".toList).2.1 (by decide),
    (rejected_input_unchanged simpleLib (Canvas.init ℚ) "start 1x zy".toList).2.2.1
      (by decide) (Or.inr (by rfl)),
    (rejected_input_unchanged simpleLib (Canvas.init ℚ) "move 1 a".toList).2.2.2.1
      (by decide) (Or.inr (by rfl)),
    (rejected_input_unchanged simpleLib (Canvas.init ℚ) "circle r".toList).2.2.2.2.1
      (by decide) (by decide) (by rfl),
    (rejected_input_unchanged simpleLib (Canvas.init ℚ) "bezier 0,0 1,1 2 3,3".toList).2.2.2.2.2
      (by decide) ⟨3, by decide, by
        rintro p ⟨xs, ys, hs, -⟩
        have hsp : splitChar ',' ((tokenize simpleLib "bezier 0,0 1,1 2 3,3".toList).getD 3 []) =
            ["2".toList] := by decide
        rw [hsp] at hs
        simp at hs⟩⟩

/-! ## Rectangles and scene updates -/

theorem normalized_ofPoints (a b : QPointF K) :
    (QRectF.ofPoints a b).normalized =
      ⟨min a.x b.x, min a.y b.y, |b.x - a.x|, |b.y - a.y|⟩ := by
  unfold QRectF.normalized QRectF.ofPoints
  rcases lt_or_le (b.x - a.x) 0 with hx | hx <;> rcases lt_or_le (b.y - a.y) 0 with hy | hy
  · simp only [hx, hy, if_true]
    rw [abs_of_neg hx, abs_of_neg hy, min_eq_right (by linarith), min_eq_right (by linarith)]
    congr 1 <;> ring
  · simp only [hx, not_lt.mpr hy, if_true, if_false]
    rw [abs_of_neg hx, abs_of_nonneg hy, min_eq_right (by linarith), min_eq_left (by linarith)]
    congr 1
    ring
  · simp only [not_lt.mpr hx, hy, if_true, if_false]
    rw [abs_of_nonneg hx, abs_of_neg hy, min_eq_left (by linarith), min_eq_right (by linarith)]
    congr 1
    ring
  · simp only [not_lt.mpr hx, not_lt.mpr hy, if_false]
    rw [abs_of_nonneg hx, abs_of_nonneg hy, min_eq_left (by linarith), min_eq_left (by linarith)]

omit [LinearOrderedField K] in
theorem updateItem_last (scene : List (Item K)) (it : Item K) (f : Shape K → Option (Shape K)) (sh : Shape K)
    (h : f it.shape = some sh) :
    updateItem (scene ++ [it]) scene.length f = some (scene ++ [{ it with shape := sh }]) := by
  unfold updateItem
  simp [h]

/-! ## Rounding and snapping -/

variable [FloorRing K]

theorem wrapInt_of_range {z : ℤ} (h1 : -2147483648 ≤ z) (h2 : z ≤ 2147483647) : wrapInt z = z := by
  unfold wrapInt
  rw [Int.emod_eq_of_lt (by omega) (by omega)]
  omega

theorem toInt_eq_floor {d : K} (h : 0 ≤ d) (hr : d < 2147483648) : toInt d = ⌊d⌋ := by
  have h1 : (0 : ℤ) ≤ ⌊d⌋ := Int.floor_nonneg.mpr h
  have h2 : ⌊d⌋ < 2147483648 := by
    rw [Int.floor_lt]
    exact_mod_cast hr
  simp only [toInt, h, if_true]
  rw [if_pos ⟨by omega, by omega⟩]

theorem toInt_eq_ceil {d : K} (h : d < 0) (hr : -2147483649 < d) : toInt d = ⌈d⌉ := by
  have h1 : ⌈d⌉ ≤ 0 := by
    rw [Int.ceil_le]
    exact_mod_cast h.le
  have h2 : -2147483649 < ⌈d⌉ := by
    rw [Int.lt_ceil]
    exact_mod_cast hr
  simp only [toInt, not_le.mpr h, if_false]
  rw [if_pos ⟨by omega, by omega⟩]

/-- Within the range of `int`, Qt 5's `qRound` rounds half up. -/
theorem qRound_eq_floor (d : K) (h1 : -2147483648 < d) (h2 : d < 2147483647) :
    qRound d = ⌊d + 1 / 2⌋ := by
  unfold qRound
  split_ifs with h
  · exact toInt_eq_floor (by linarith) (by linarith)
  · have hd : d < 0 := not_le.mp h
    rw [toInt_eq_ceil (show d - 1 < 0 by linarith) (by linarith)]
    have h3 : (⌈d - 1⌉ : K) < d - 1 + 1 := Int.ceil_lt_add_one (d - 1)
    have h4 : d - 1 ≤ (⌈d - 1⌉ : K) := Int.le_ceil (d - 1)
    rw [toInt_eq_floor (show 0 ≤ d - (⌈d - 1⌉ : K) + 1 / 2 by linarith) (by linarith)]
    have e : d + 1 / 2 = (d - (⌈d - 1⌉ : K) + 1 / 2) + ((⌈d - 1⌉ : ℤ) : K) := by ring
    rw [e, Int.floor_add_int]
    apply wrapInt_of_range
    · rw [← Int.floor_add_int, ← e, Int.le_floor]
      push_cast
      linarith
    · rw [← Int.floor_add_int, ← e]
      have : ⌊d + 1 / 2⌋ < 1 := by
        rw [Int.floor_lt]
        push_cast
        linarith
      omega

theorem qRound_intCast (k : ℤ) (h1 : -2147483648 < k) (h2 : k < 2147483647) :
    qRound (k : K) = k := by
  rw [qRound_eq_floor _ (by exact_mod_cast h1) (by exact_mod_cast h2), Int.floor_eq_iff]
  constructor <;> linarith

theorem snap_off (c : Canvas K) (h : c.snapToGrid = false) (p : QPointF K) : c.snap p = p := by
  simp [Canvas.snap, h]

theorem snap_on (c : Canvas K) (h : c.snapToGrid = true) (p : QPointF K) :
    c.snap p = ⟨((wrapInt (qRound (p.x / 20) * 20) : ℤ) : K),
      ((wrapInt (qRound (p.y / 20) * 20) : ℤ) : K)⟩ := by
  simp [Canvas.snap, h]

/-- In the range of `snap`, a coordinate goes to the multiple of 20 given by
rounding half up, without overflow. -/
theorem snap_coord_eq (x : K) (h : SnapRange x) :
    wrapInt (qRound (x / 20) * 20) = ⌊x / 20 + 1 / 2⌋ * 20 := by
  obtain ⟨h1, h2⟩ := h
  have e : x / 20 * 20 = x := by field_simp
  have l1 : (-107374182 : ℤ) ≤ ⌊x / 20 + 1 / 2⌋ := by
    rw [Int.le_floor]
    push_cast
    linarith
  have l2 : ⌊x / 20 + 1 / 2⌋ < 107374183 := by
    rw [Int.floor_lt]
    push_cast
    linarith
  rw [qRound_eq_floor _ (by linarith) (by linarith)]
  exact wrapInt_of_range (by omega) (by omega)

omit [FloorRing K] in
theorem snapRange_grid (k : ℤ) (h1 : -107374182 ≤ k) (h2 : k ≤ 107374182) :
    SnapRange (((k * 20 : ℤ) : K)) := by
  constructor
  · have : ((-2147483650 : ℤ) : K) ≤ ((k * 20 : ℤ) : K) := by
      exact_mod_cast (by omega : (-2147483650 : ℤ) ≤ k * 20)
    exact_mod_cast this
  · have : ((k * 20 : ℤ) : K) < ((2147483650 : ℤ) : K) := by
      exact_mod_cast (by omega : k * 20 < (2147483650 : ℤ))
    exact_mod_cast this

theorem floor_grid (k : ℤ) : ⌊((k * 20 : ℤ) : K) / 20 + 1 / 2⌋ = k := by
  rw [Int.floor_eq_iff]
  push_cast
  constructor <;> linarith

theorem snap_on_grid (c : Canvas K) (h : c.snapToGrid = true) (kx ky : ℤ)
    (hx : -107374182 ≤ kx ∧ kx ≤ 107374182) (hy : -107374182 ≤ ky ∧ ky ≤ 107374182) :
    c.snap ⟨((kx * 20 : ℤ) : K), ((ky * 20 : ℤ) : K)⟩ =
      ⟨((kx * 20 : ℤ) : K), ((ky * 20 : ℤ) : K)⟩ := by
  rw [snap_on c h]
  simp only [snap_coord_eq _ (snapRange_grid kx hx.1 hx.2),
    snap_coord_eq _ (snapRange_grid ky hy.1 hy.2), floor_grid]

theorem floor_range (x : K) (h : SnapRange x) :
    -107374182 ≤ ⌊x / 20 + 1 / 2⌋ ∧ ⌊x / 20 + 1 / 2⌋ ≤ 107374182 := by
  obtain ⟨h1, h2⟩ := h
  have e : x / 20 * 20 = x := by field_simp
  constructor
  · rw [Int.le_floor]
    push_cast
    linarith
  · have : ⌊x / 20 + 1 / 2⌋ < 107374183 := by
      rw [Int.floor_lt]
      push_cast
      linarith
    omega

theorem snap_in_range (c : Canvas K) (h : c.snapToGrid = true) (p : QPointF K)
    (hx : SnapRange p.x) (hy : SnapRange p.y) :
    c.snap p = ⟨((⌊p.x / 20 + 1 / 2⌋ * 20 : ℤ) : K), ((⌊p.y / 20 + 1 / 2⌋ * 20 : ℤ) : K)⟩ := by
  rw [snap_on c h, snap_coord_eq _ hx, snap_coord_eq _ hy]

theorem snap_snap (c : Canvas K) (p : QPointF K) (hx : SnapRange p.x) (hy : SnapRange p.y) :
    c.snap (c.snap p) = c.snap p := by
  cases h : c.snapToGrid with
  | false => rw [snap_off c h, snap_off c h]
  | true =>
    rw [snap_in_range c h p hx hy]
    exact snap_on_grid c h _ _ (floor_range _ hx) (floor_range _ hy)

/-! ## The indicator (C4) -/

theorem mouseMoveEvent_idle (lib : QtLib K) (c : Canvas K) (pos : QPointF K)
    (h : c.drawing = false ∨ c.currentItem = none ∨ c.tool = Tool.Bezier) :
    c.mouseMoveEvent lib pos = some { c with mouseMoved := c.mouseMoved ++ [c.snap pos] } := by
  unfold Canvas.mouseMoveEvent
  rcases h with h | h | h <;> simp [h]

/-- C4, at the failing input: in the initial state (no tool, not drawing, no
draft) a pointer move to (40,40), which snaps to (40,40), only emits the signal
and returns; the indicator keeps its rectangle (-4,-4,8,8) instead of
(36,36,8,8). -/
theorem idle_move_leaves_indicator :
    (Canvas.init ℚ).snap ⟨40, 40⟩ = ⟨40, 40⟩ ∧
    ∃ c1, (Canvas.init ℚ).mouseMoveEvent simpleLib ⟨40, 40⟩ = some c1 ∧
      c1.snapIndicator = ⟨-4, -4, 8, 8⟩ ∧
      c1.snapIndicator ≠ ⟨(40 : ℚ) - 4, (40 : ℚ) - 4, 8, 8⟩ := by
  constructor
  · have h := snap_on_grid (Canvas.init ℚ) rfl 2 2
      (by norm_num) (by norm_num)
    norm_num at h
    exact h
  · refine ⟨_, mouseMoveEvent_idle simpleLib (Canvas.init ℚ) ⟨40, 40⟩ (Or.inl rfl), rfl, ?_⟩
    simp only [Canvas.init, ne_eq, QRectF.mk.injEq, not_and]
    intro h
    norm_num at h

/-! ## The Rectangle tool (C8) -/

theorem snap_congr (c c1 : Canvas K) (h : c1.snapToGrid = c.snapToGrid) (p : QPointF K) :
    c1.snap p = c.snap p := by
  simp [Canvas.snap, h]

theorem press_rectangle (c : Canvas K) (P : QPointF K) (ht : c.tool = Tool.Rectangle) :
    c.mousePressEvent P =
      { c with
        drawing := true
        start := c.snap P
        scene := c.scene ++ [rectItem (QRectF.ofPoints (c.snap P) (c.snap P))]
        currentItem := some c.scene.length } := by
  simp [Canvas.mousePressEvent, ht, Canvas.addItem, rectItem]

theorem move_rectangle (lib : QtLib K) (c : Canvas K) (pos : QPointF K) (sc : List (Item K)) (r0 : QRectF K)
    (ht : c.tool = Tool.Rectangle) (hd : c.drawing = true)
    (hs : c.scene = sc ++ [rectItem r0]) (hi : c.currentItem = some sc.length) :
    c.mouseMoveEvent lib pos =
      some { c with
        scene := sc ++ [rectItem (QRectF.ofPoints c.start (c.snap pos)).normalized]
        mouseMoved := c.mouseMoved ++ [c.snap pos] ++ [c.snap pos]
        snapIndicator := ⟨(c.snap pos).x - 4, (c.snap pos).y - 4, 8, 8⟩ } := by
  have hu := updateItem_last sc (rectItem r0)
    (fun
      | Shape.rect _ => some (Shape.rect (QRectF.ofPoints c.start (c.snap pos)).normalized)
      | _ => none)
    (Shape.rect (QRectF.ofPoints c.start (c.snap pos)).normalized) rfl
  simp only [Canvas.mouseMoveEvent, ht, hd, hs, hi, hu]
  simp [rectItem]

theorem rectangle_run (lib : QtLib K) (c : Canvas K) (P Q : QPointF K)
    (ht : c.tool = Tool.Rectangle) :
    ∃ c3, c.runEvents lib [Event.press P, Event.move Q, Event.release] = some c3 ∧
      c3.scene = c.scene ++ [rectItem (QRectF.ofPoints (c.snap P) (c.snap Q)).normalized] := by
  have hm := move_rectangle lib (c.mousePressEvent P) Q c.scene
    (QRectF.ofPoints (c.snap P) (c.snap P))
    (by rw [press_rectangle c P ht]; exact ht) (by rw [press_rectangle c P ht])
    (by rw [press_rectangle c P ht]) (by rw [press_rectangle c P ht])
  simp only [Canvas.runEvents, Canvas.step, hm]
  refine ⟨_, rfl, ?_⟩
  rw [press_rectangle c P ht]
  simp [Canvas.mouseReleaseEvent, ht]
  rfl

/-- C8: for every state with the Rectangle tool, every snap setting and all
raw points `P`, `Q`, the gesture press `P`, move `Q`, release appends exactly
one rectangle to the scene, with corner `(min A.x B.x, min A.y B.y)`, width
`|B.x - A.x|` and height `|B.y - A.y|`, both non-negative, where `A`, `B` are
the snapped points. -/
theorem rectangle_gesture (lib : QtLib K) (c : Canvas K) (P Q : QPointF K)
    (ht : c.tool = Tool.Rectangle) :
    ∃ c3, c.runEvents lib [Event.press P, Event.move Q, Event.release] = some c3 ∧
      c3.scene = c.scene ++
        [rectItem ⟨min (c.snap P).x (c.snap Q).x, min (c.snap P).y (c.snap Q).y,
          |(c.snap Q).x - (c.snap P).x|, |(c.snap Q).y - (c.snap P).y|⟩] ∧
      0 ≤ |(c.snap Q).x - (c.snap P).x| ∧ 0 ≤ |(c.snap Q).y - (c.snap P).y| := by
  obtain ⟨c3, h1, h2⟩ := rectangle_run lib c P Q ht
  exact ⟨c3, h1, by rw [h2, normalized_ofPoints], abs_nonneg _, abs_nonneg _⟩

/-- C8, witness: the Rectangle tool chosen in the initial state, a drag from
(60,60) up and to the left to (20,40). -/
theorem rectangle_gesture_witness :
    ((Canvas.init ℚ).setTool Tool.Rectangle).tool = Tool.Rectangle ∧
    ∃ c3, ((Canvas.init ℚ).setTool Tool.Rectangle).runEvents simpleLib
        [Event.press ⟨60, 60⟩, Event.move ⟨20, 40⟩, Event.release] = some c3 ∧
      c3.scene = [rectItem ⟨20, 40, 40, 20⟩] := by
  have h60 : ((Canvas.init ℚ).setTool Tool.Rectangle).snap ⟨60, 60⟩ = ⟨60, 60⟩ := by
    have h := snap_on_grid ((Canvas.init ℚ).setTool Tool.Rectangle) rfl 3 3
      (by norm_num) (by norm_num)
    norm_num at h
    exact h
  have h20 : ((Canvas.init ℚ).setTool Tool.Rectangle).snap ⟨20, 40⟩ = ⟨20, 40⟩ := by
    have h := snap_on_grid ((Canvas.init ℚ).setTool Tool.Rectangle) rfl 1 2
      (by norm_num) (by norm_num)
    norm_num at h
    exact h
  obtain ⟨c3, h1, h2, -⟩ :=
    rectangle_gesture simpleLib ((Canvas.init ℚ).setTool Tool.Rectangle) ⟨60, 60⟩ ⟨20, 40⟩ rfl
  refine ⟨rfl, c3, h1, ?_⟩
  rw [h2, h60, h20]
  simp only [Canvas.setTool, Canvas.init, List.nil_append]
  norm_num

/-! ## The Bezier tool (C9) -/

theorem runEvents_append (lib : QtLib K) :
    ∀ (es fs : List (Event K)) (c : Canvas K),
      c.runEvents lib (es ++ fs) = (c.runEvents lib es).bind fun c1 => c1.runEvents lib fs
  | [], _, _ => rfl
  | e :: es, fs, c => by
    simp only [List.cons_append, Canvas.runEvents]
    cases c.step lib e with
    | none => rfl
    | some c1 => exact runEvents_append lib es fs c1

omit [LinearOrderedField K] [FloorRing K] in
theorem release_bezier (c : Canvas K) (ht : c.tool = Tool.Bezier) : c.mouseReleaseEvent = c := by
  simp [Canvas.mouseReleaseEvent, ht]

/-- With the Bezier tool, pointer moves and releases change nothing but the
record of emitted signals. -/
theorem runEvents_noise (lib : QtLib K) :
    ∀ (ns : List (Event K)) (c : Canvas K), c.tool = Tool.Bezier →
      (∀ e ∈ ns, e.isMoveOrRelease = true) →
      ∃ m, c.runEvents lib ns = some { c with mouseMoved := m }
  | [], c, _, _ => ⟨c.mouseMoved, rfl⟩
  | e :: ns, c, ht, hn => by
    have he := hn e (List.mem_cons_self _ _)
    have hns : ∀ e1 ∈ ns, e1.isMoveOrRelease = true := fun e1 h1 =>
      hn e1 (List.mem_cons_of_mem _ h1)
    cases e with
    | move pos =>
      obtain ⟨m, hm⟩ := runEvents_noise lib ns
        { c with mouseMoved := c.mouseMoved ++ [c.snap pos] } ht hns
      exact ⟨m, by
        simp only [Canvas.runEvents, Canvas.step,
          mouseMoveEvent_idle lib c pos (Or.inr (Or.inr ht)), hm]⟩
    | release =>
      obtain ⟨m, hm⟩ := runEvents_noise lib ns c ht hns
      exact ⟨m, by simp only [Canvas.runEvents, Canvas.step, release_bezier c ht, hm]⟩
    | setTool t => simp [Event.isMoveOrRelease] at he
    | toggleSnap b => simp [Event.isMoveOrRelease] at he
    | press pos => simp [Event.isMoveOrRelease] at he
    | command cmd => simp [Event.isMoveOrRelease] at he

theorem press_bezier_collect (c : Canvas K) (P : QPointF K) (ht : c.tool = Tool.Bezier)
    (hl : c.bezierPts.length < 3) :
    c.mousePressEvent P =
      { c with drawing := true, start := c.snap P, bezierPts := c.bezierPts ++ [c.snap P] } := by
  simp only [Canvas.mousePressEvent, ht]
  match h : c.bezierPts, hl with
  | [], _ => simp [h]
  | [a], _ => simp [h]
  | [a, b], _ => simp [h]

theorem press_bezier_commit (c : Canvas K) (P a b d : QPointF K) (ht : c.tool = Tool.Bezier)
    (hl : c.bezierPts = [a, b, d]) :
    c.mousePressEvent P =
      { c with
        drawing := false
        start := c.snap P
        bezierPts := []
        scene := c.scene ++ [cubicItem a b d (c.snap P)] } := by
  simp [Canvas.mousePressEvent, ht, hl, Canvas.addItem, cubicItem]

/-- One press of the Bezier tool after any pointer moves and releases, fewer
than three points collected so far. -/
theorem bezier_segment_collect (lib : QtLib K) (c : Canvas K) (ns : List (Event K)) (P : QPointF K)
    (ht : c.tool = Tool.Bezier) (hn : ∀ e ∈ ns, e.isMoveOrRelease = true)
    (hl : c.bezierPts.length < 3) :
    ∃ c1, c.runEvents lib (ns ++ [Event.press P]) = some c1 ∧ c1.tool = Tool.Bezier ∧
      c1.snapToGrid = c.snapToGrid ∧ c1.scene = c.scene ∧
      c1.bezierPts = c.bezierPts ++ [c.snap P] := by
  obtain ⟨m, hm⟩ := runEvents_noise lib ns c ht hn
  refine ⟨_, by rw [runEvents_append, hm]; rfl, ?_⟩
  rw [press_bezier_collect { c with mouseMoved := m } P ht hl]
  exact ⟨ht, rfl, rfl, rfl⟩

/-- The press of the Bezier tool that brings the fourth point. -/
theorem bezier_segment_commit (lib : QtLib K) (c : Canvas K) (ns : List (Event K)) (P a b d : QPointF K)
    (ht : c.tool = Tool.Bezier) (hn : ∀ e ∈ ns, e.isMoveOrRelease = true)
    (hl : c.bezierPts = [a, b, d]) :
    ∃ c1, c.runEvents lib (ns ++ [Event.press P]) = some c1 ∧ c1.tool = Tool.Bezier ∧
      c1.snapToGrid = c.snapToGrid ∧ c1.scene = c.scene ++ [cubicItem a b d (c.snap P)] ∧
      c1.bezierPts = [] ∧ c1.drawing = false := by
  obtain ⟨m, hm⟩ := runEvents_noise lib ns c ht hn
  refine ⟨_, by rw [runEvents_append, hm]; rfl, ?_⟩
  rw [press_bezier_commit { c with mouseMoved := m } P a b d ht hl]
  exact ⟨ht, rfl, rfl, rfl, rfl⟩

/-- C9: with the Bezier tool and an empty accumulator, whatever pointer moves
and releases come in between (`n0` .. `n4`), the first three presses leave the
scene as it was; the fourth appends exactly one cubic path through the four
snapped press points in order, empties the accumulator and leaves `drawing`
false; the fifth leaves the accumulator holding its snapped point alone and
adds nothing. -/
theorem bezier_gesture (lib : QtLib K) (c : Canvas K) (P1 P2 P3 P4 P5 : QPointF K)
    (n0 n1 n2 n3 n4 : List (Event K)) (ht : c.tool = Tool.Bezier) (he : c.bezierPts = [])
    (h0 : ∀ e ∈ n0, e.isMoveOrRelease = true) (h1 : ∀ e ∈ n1, e.isMoveOrRelease = true)
    (h2 : ∀ e ∈ n2, e.isMoveOrRelease = true) (h3 : ∀ e ∈ n3, e.isMoveOrRelease = true)
    (h4 : ∀ e ∈ n4, e.isMoveOrRelease = true) :
    ∃ c1 c2 c3 c4 c5,
      c.runEvents lib (n0 ++ [Event.press P1]) = some c1 ∧ c1.scene = c.scene ∧
      c1.runEvents lib (n1 ++ [Event.press P2]) = some c2 ∧ c2.scene = c.scene ∧
      c2.runEvents lib (n2 ++ [Event.press P3]) = some c3 ∧ c3.scene = c.scene ∧
      c3.runEvents lib (n3 ++ [Event.press P4]) = some c4 ∧
      c4.scene = c.scene ++ [cubicItem (c.snap P1) (c.snap P2) (c.snap P3) (c.snap P4)] ∧
      c4.bezierPts = [] ∧ c4.drawing = false ∧
      c4.runEvents lib (n4 ++ [Event.press P5]) = some c5 ∧
      c5.bezierPts = [c.snap P5] ∧ c5.scene = c4.scene := by
  obtain ⟨c1, r1, t1, s1, sc1, b1⟩ :=
    bezier_segment_collect lib c n0 P1 ht h0 (by simp [he])
  obtain ⟨c2, r2, t2, s2, sc2, b2⟩ :=
    bezier_segment_collect lib c1 n1 P2 t1 h1 (by simp [b1, he])
  obtain ⟨c3, r3, t3, s3, sc3, b3⟩ :=
    bezier_segment_collect lib c2 n2 P3 t2 h2 (by simp [b2, b1, he])
  have e1 : ∀ p, c1.snap p = c.snap p := snap_congr c c1 s1
  have e2 : ∀ p, c2.snap p = c.snap p := snap_congr c c2 (s2.trans s1)
  have e3 : ∀ p, c3.snap p = c.snap p := snap_congr c c3 (s3.trans (s2.trans s1))
  have b3full : c3.bezierPts = [c.snap P1, c.snap P2, c.snap P3] := by
    rw [b3, b2, b1, he, e1, e2]
    rfl
  obtain ⟨c4, r4, t4, s4, sc4, b4, d4⟩ :=
    bezier_segment_commit lib c3 n3 P4 _ _ _ t3 h3 b3full
  have e4 : ∀ p, c4.snap p = c.snap p :=
    snap_congr c c4 (s4.trans (s3.trans (s2.trans s1)))
  obtain ⟨c5, r5, -, -, sc5, b5⟩ :=
    bezier_segment_collect lib c4 n4 P5 t4 h4 (by simp [b4])
  refine ⟨c1, c2, c3, c4, c5, r1, sc1, r2, by rw [sc2, sc1], r3, by rw [sc3, sc2, sc1], r4, ?_,
    b4, d4, r5, by rw [b5, b4, e4]; rfl, sc5⟩
  rw [sc4, sc3, sc2, sc1, e3]

/-- C9, witness: the Bezier tool chosen in the initial state, five presses with
a move and a release after each of the first four. -/
theorem bezier_gesture_witness :
    ((Canvas.init ℚ).setTool Tool.Bezier).tool = Tool.Bezier ∧
    ((Canvas.init ℚ).setTool Tool.Bezier).bezierPts = [] ∧
    ∃ c4, ((Canvas.init ℚ).setTool Tool.Bezier).runEvents simpleLib
        [Event.press ⟨0, 0⟩, Event.move ⟨5, 5⟩, Event.release,
          Event.press ⟨20, 0⟩, Event.move ⟨5, 5⟩, Event.release,
          Event.press ⟨20, 20⟩, Event.move ⟨5, 5⟩, Event.release,
          Event.press ⟨0, 20⟩] = some c4 ∧
      c4.scene =
        [cubicItem (((Canvas.init ℚ).setTool Tool.Bezier).snap ⟨0, 0⟩)
          (((Canvas.init ℚ).setTool Tool.Bezier).snap ⟨20, 0⟩)
          (((Canvas.init ℚ).setTool Tool.Bezier).snap ⟨20, 20⟩)
          (((Canvas.init ℚ).setTool Tool.Bezier).snap ⟨0, 20⟩)] := by
  have hn : ∀ e ∈ ([Event.move ⟨5, 5⟩, Event.release] : List (Event ℚ)),
      e.isMoveOrRelease = true := by decide
  obtain ⟨c1, c2, c3, c4, c5, r1, -, r2, -, r3, -, r4, s4, -⟩ :=
    bezier_gesture simpleLib ((Canvas.init ℚ).setTool Tool.Bezier)
      ⟨0, 0⟩ ⟨20, 0⟩ ⟨20, 20⟩ ⟨0, 20⟩ ⟨40, 40⟩ []
      [Event.move ⟨5, 5⟩, Event.release] [Event.move ⟨5, 5⟩, Event.release]
      [Event.move ⟨5, 5⟩, Event.release] [] rfl rfl (by simp) hn hn hn (by simp)
  refine ⟨rfl, rfl, c4, ?_, s4⟩
  have e := runEvents_append simpleLib [Event.press ⟨0, 0⟩]
    ([Event.move ⟨5, 5⟩, Event.release, Event.press ⟨20, 0⟩] ++
      ([Event.move ⟨5, 5⟩, Event.release, Event.press ⟨20, 20⟩] ++
        [Event.move ⟨5, 5⟩, Event.release, Event.press ⟨0, 20⟩]))
    ((Canvas.init ℚ).setTool Tool.Bezier)
  rw [List.nil_append] at r1
  simp only [List.cons_append, List.nil_append] at e r2 r3 r4
  rw [e, r1, Option.some_bind]
  have e2 := runEvents_append simpleLib [Event.move ⟨5, 5⟩, Event.release, Event.press ⟨20, 0⟩]
    ([Event.move ⟨5, 5⟩, Event.release, Event.press ⟨20, 20⟩] ++
        [Event.move ⟨5, 5⟩, Event.release, Event.press ⟨0, 20⟩]) c1
  have e3 := runEvents_append simpleLib [Event.move ⟨5, 5⟩, Event.release, Event.press ⟨20, 20⟩]
    [Event.move ⟨5, 5⟩, Event.release, Event.press ⟨0, 20⟩] c2
  simp only [List.cons_append, List.nil_append] at e2 e3
  rw [e2, r2, Option.some_bind, e3, r3, Option.some_bind, r4]

/-! ## Snapping (C10) -/

/-- With snapping on, (3000000000, 0) snaps to (-1294967296, 0): 150000000 * 20
does not fit in an `int`. -/
theorem snap_far : (Canvas.init ℚ).snap ⟨3000000000, 0⟩ = ⟨-1294967296, 0⟩ := by
  have e1 : (3000000000 : ℚ) / 20 = ((150000000 : ℤ) : ℚ) := by norm_num
  have e2 : (0 : ℚ) / 20 = ((0 : ℤ) : ℚ) := by norm_num
  have w1 : wrapInt (150000000 * 20) = -1294967296 := by decide
  have w2 : wrapInt (0 * 20) = 0 := by decide
  rw [snap_on (Canvas.init ℚ) rfl]
  simp only [e1, e2]
  rw [qRound_intCast _ (by norm_num) (by norm_num), qRound_intCast _ (by norm_num) (by norm_num),
    w1, w2]
  norm_num

theorem snap_far_again : (Canvas.init ℚ).snap ⟨-1294967296, 0⟩ = ⟨-1294967300, 0⟩ := by
  have hx : SnapRange (-1294967296 : ℚ) := ⟨by norm_num, by norm_num⟩
  have hy : SnapRange (0 : ℚ) := ⟨by norm_num, by norm_num⟩
  have f1 : ⌊(-1294967296 : ℚ) / 20 + 1 / 2⌋ = -64748365 := by
    rw [Int.floor_eq_iff]
    norm_num
  have f2 : ⌊(0 : ℚ) / 20 + 1 / 2⌋ = 0 := by
    rw [Int.floor_eq_iff]
    norm_num
  rw [snap_in_range (Canvas.init ℚ) rfl ⟨-1294967296, 0⟩ hx hy]
  simp only [f1, f2]
  norm_num

/-- C10, counterexample: with snapping on, (3000000000, 0) snaps to
(-1294967296, 0), the product 150000000 * 20 being taken in 32 bits, and that
point snaps to (-1294967300, 0): snapping twice is not snapping once. -/
theorem snap_twice_differs_beyond_int :
    (Canvas.init ℚ).snapToGrid = true ∧
    (Canvas.init ℚ).snap ⟨3000000000, 0⟩ = ⟨-1294967296, 0⟩ ∧
    (Canvas.init ℚ).snap ((Canvas.init ℚ).snap ⟨3000000000, 0⟩) = ⟨-1294967300, 0⟩ ∧
    (Canvas.init ℚ).snap ((Canvas.init ℚ).snap ⟨3000000000, 0⟩) ≠
      (Canvas.init ℚ).snap ⟨3000000000, 0⟩ := by
  refine ⟨rfl, snap_far, ?_, ?_⟩
  · rw [snap_far, snap_far_again]
  · rw [snap_far, snap_far_again]
    intro h
    have := congrArg QPointF.x h
    norm_num at this

/-- C10, as amended: for either value of the snap flag and every point whose
coordinates lie in [-2147483650, 2147483650), where the grid line fits in an
`int`, snapping twice is snapping once; and with the flag off snapping is the
identity at every point. -/
theorem snap_idempotent_in_range (c : Canvas K) (p : QPointF K) :
    (SnapRange p.x → SnapRange p.y → c.snap (c.snap p) = c.snap p) ∧
    (c.snapToGrid = false → c.snap p = p ∧ c.snap (c.snap p) = c.snap p) := by
  refine ⟨fun hx hy => snap_snap c p hx hy, fun h => ⟨snap_off c h p, ?_⟩⟩
  rw [snap_off c h, snap_off c h]

/-- C10, witness: the point (7, -13) in the initial state (snapping on), and
in the same state with snapping switched off. -/
theorem snap_idempotent_in_range_witness :
    SnapRange (7 : ℚ) ∧ SnapRange (-13 : ℚ) ∧
    (Canvas.init ℚ).snap ((Canvas.init ℚ).snap ⟨7, -13⟩) = (Canvas.init ℚ).snap ⟨7, -13⟩ ∧
    ((Canvas.init ℚ).toggleSnap false).snapToGrid = false ∧
    ((Canvas.init ℚ).toggleSnap false).snap ⟨7, -13⟩ = ⟨7, -13⟩ :=
  ⟨⟨by norm_num, by norm_num⟩, ⟨by norm_num, by norm_num⟩,
    (snap_idempotent_in_range (Canvas.init ℚ) ⟨7, -13⟩).1 ⟨by norm_num, by norm_num⟩
      ⟨by norm_num, by norm_num⟩,
    rfl, ((snap_idempotent_in_range ((Canvas.init ℚ).toggleSnap false) ⟨7, -13⟩).2 rfl).1⟩

/-! ## The rounding rule of `snap` (C11) -/

theorem specRound_eq_floor (d : K) (h : 0 ≤ d ∨ ¬ ∃ k : ℤ, d = k - 1 / 2) :
    specRound d = ⌊d + 1 / 2⌋ := by
  unfold specRound
  split_ifs with h0
  · rfl
  · have hn : ¬ ∃ k : ℤ, d = k - 1 / 2 := by
      rcases h with h | h
      · exact absurd h h0
      · exact h
    -- d - 1/2 is not an integer, so its ceiling is its floor plus one
    have hne : (⌊d - 1 / 2⌋ : K) ≠ d - 1 / 2 := by
      intro e
      exact hn ⟨⌊d - 1 / 2⌋ + 1, by push_cast; linarith⟩
    have hlt : (⌊d - 1 / 2⌋ : K) < d - 1 / 2 := lt_of_le_of_ne (Int.floor_le _) hne
    have hc : ⌈d - 1 / 2⌉ = ⌊d - 1 / 2⌋ + 1 := by
      rw [Int.ceil_eq_iff]
      constructor
      · push_cast; linarith
      · have := Int.lt_floor_add_one (d - 1 / 2)
        push_cast
        linarith
    rw [hc]
    have e : d + 1 / 2 = (d - 1 / 2) + ((1 : ℤ) : K) := by push_cast; ring
    rw [e, Int.floor_add_int]

theorem snap_coord_bounds (x : K) :
    |((⌊x / 20 + 1 / 2⌋ * 20 : ℤ) : K) - x| ≤ 10 := by
  have h1 := Int.floor_le (x / 20 + 1 / 2)
  have h2 := Int.lt_floor_add_one (x / 20 + 1 / 2)
  have e : x / 20 * 20 = x := by field_simp
  rw [abs_le]
  push_cast
  constructor <;> nlinarith

theorem snap_coord_half (x : K) (k : ℤ) (h : x = 20 * k + 10) :
    ((⌊x / 20 + 1 / 2⌋ * 20 : ℤ) : K) = 20 * k + 20 := by
  have e : x / 20 + 1 / 2 = ((k + 1 : ℤ) : K) := by rw [h]; push_cast; field_simp; ring
  rw [e, Int.floor_intCast]
  push_cast
  ring

/-- C11, counterexample: with snapping on, (-10,-10) snaps to (0,0). The tie
-1/2 is rounded up to 0, whereas rounding ties away from zero gives -1 and
the grid line -20. And (3000000000, 0) snaps to (-1294967296, 0), which is
not a multiple of 20 and is not within 10 of the input: the product
150000000 * 20 does not fit in an `int`. -/
theorem snap_negative_tie_rounds_up :
    (Canvas.init ℚ).snapToGrid = true ∧
    (Canvas.init ℚ).snap ⟨-10, -10⟩ = ⟨0, 0⟩ ∧
    ((specRound ((-10 : ℚ) / 20) * 20 : ℤ) : ℚ) = -20 ∧
    (Canvas.init ℚ).snap ⟨3000000000, 0⟩ = ⟨-1294967296, 0⟩ ∧
    ((specRound ((3000000000 : ℚ) / 20) * 20 : ℤ) : ℚ) = 3000000000 := by
  have hr : SnapRange (-10 : ℚ) := ⟨by norm_num, by norm_num⟩
  have hf : ⌊(-10 : ℚ) / 20 + 1 / 2⌋ = 0 := by
    rw [Int.floor_eq_iff]
    norm_num
  have hs : specRound ((-10 : ℚ) / 20) = -1 := by
    unfold specRound
    rw [if_neg (by norm_num), Int.ceil_eq_iff]
    norm_num
  have hs2 : specRound ((3000000000 : ℚ) / 20) = 150000000 := by
    unfold specRound
    rw [if_pos (by norm_num), Int.floor_eq_iff]
    norm_num
  refine ⟨rfl, ?_, ?_, snap_far, ?_⟩
  · rw [snap_in_range (Canvas.init ℚ) rfl ⟨-10, -10⟩ hr hr]
    simp only [hf]
    norm_num
  · rw [hs]
    norm_num
  · rw [hs2]
    norm_num

/-- C11, as amended: with snapping on and both coordinates of `p` in
[-2147483650, 2147483650), where the grid line fits in an `int`, `snap p` is
`(round(p.x/20)*20, round(p.y/20)*20)` where `round` is to the nearest integer
with ties rounded up (`⌊d + 1/2⌋`, the `qRound` of Qt 5). Each output
coordinate is a multiple of 20 at distance at most 10 from the input
coordinate; an input exactly halfway between two grid lines snaps to the
greater one; and the result is that of rounding ties away from zero at every
coordinate that is not a negative halfway point. -/
theorem snap_rounds_half_up (c : Canvas K) (p : QPointF K) (h : c.snapToGrid = true)
    (hx : SnapRange p.x) (hy : SnapRange p.y) :
    c.snap p = ⟨((⌊p.x / 20 + 1 / 2⌋ * 20 : ℤ) : K), ((⌊p.y / 20 + 1 / 2⌋ * 20 : ℤ) : K)⟩ ∧
    (∃ kx ky : ℤ, (c.snap p).x = 20 * kx ∧ (c.snap p).y = 20 * ky) ∧
    |(c.snap p).x - p.x| ≤ 10 ∧ |(c.snap p).y - p.y| ≤ 10 ∧
    (∀ k : ℤ, p.x = 20 * k + 10 → (c.snap p).x = 20 * k + 20) ∧
    (∀ k : ℤ, p.y = 20 * k + 10 → (c.snap p).y = 20 * k + 20) ∧
    ((0 ≤ p.x ∨ ¬ ∃ k : ℤ, p.x = 20 * k + 10) →
      (c.snap p).x = ((specRound (p.x / 20) * 20 : ℤ) : K)) ∧
    ((0 ≤ p.y ∨ ¬ ∃ k : ℤ, p.y = 20 * k + 10) →
      (c.snap p).y = ((specRound (p.y / 20) * 20 : ℤ) : K)) := by
  have key : ∀ x : K, (0 ≤ x ∨ ¬ ∃ k : ℤ, x = 20 * k + 10) →
      ((⌊x / 20 + 1 / 2⌋ * 20 : ℤ) : K) = ((specRound (x / 20) * 20 : ℤ) : K) := by
    intro x hx
    rw [specRound_eq_floor]
    rcases hx with hx | hx
    · exact Or.inl (div_nonneg hx (by norm_num))
    · refine Or.inr ?_
      rintro ⟨k, hk⟩
      refine hx ⟨k - 1, ?_⟩
      have : x = (x / 20) * 20 := by field_simp
      rw [this, hk]
      push_cast
      ring
  rw [snap_in_range c h p hx hy]
  refine ⟨rfl, ⟨⌊p.x / 20 + 1 / 2⌋, ⌊p.y / 20 + 1 / 2⌋, ?_, ?_⟩,
    snap_coord_bounds p.x, snap_coord_bounds p.y, fun k hk => snap_coord_half p.x k hk,
    fun k hk => snap_coord_half p.y k hk, key p.x, key p.y⟩
  · push_cast
    ring
  · push_cast
    ring

/-- C11, witness: in the initial state (snapping on) the point (10,-10), both
coordinates halfway, snaps to (20,0). -/
theorem snap_rounds_half_up_witness :
    (Canvas.init ℚ).snapToGrid = true ∧ SnapRange (10 : ℚ) ∧ SnapRange (-10 : ℚ) ∧
    ((Canvas.init ℚ).snap ⟨10, -10⟩).x = 20 ∧ ((Canvas.init ℚ).snap ⟨10, -10⟩).y = 0 := by
  have hx : SnapRange (10 : ℚ) := ⟨by norm_num, by norm_num⟩
  have hy : SnapRange (-10 : ℚ) := ⟨by norm_num, by norm_num⟩
  have h := snap_rounds_half_up (Canvas.init ℚ) ⟨10, -10⟩ rfl hx hy
  refine ⟨rfl, hx, hy, ?_, ?_⟩
  · have h1 := h.2.2.2.2.1 0 (by norm_num)
    rw [h1]
    norm_num
  · have h2 := h.2.2.2.2.2.1 (-1) (by norm_num)
    rw [h2]
    norm_num

/-! ## The two modalities (C17) -/

omit [FloorRing K] in
/-- A command line leaves every member that the pointer handlers use, the
scene apart. -/
theorem runTokens_frame (lib : QtLib K) (c : Canvas K) (tokens : List QString) :
    (c.runTokens lib tokens).tool = c.tool ∧
    (c.runTokens lib tokens).snapToGrid = c.snapToGrid ∧
    (c.runTokens lib tokens).drawing = c.drawing ∧
    (c.runTokens lib tokens).start = c.start ∧
    (c.runTokens lib tokens).currentItem = c.currentItem ∧
    (c.runTokens lib tokens).bezierPts = c.bezierPts ∧
    (c.runTokens lib tokens).snapIndicator = c.snapIndicator ∧
    c.scene <+: (c.runTokens lib tokens).scene := by
  unfold Canvas.runTokens
  repeat' split
  all_goals
    refine ⟨rfl, rfl, rfl, rfl, rfl, rfl, rfl, ?_⟩
    simp [drawMarker_eq, Canvas.addItem]

theorem mousePressEvent_frame (c : Canvas K) (pos : QPointF K) :
    (c.mousePressEvent pos).currentPos = c.currentPos ∧
    (c.mousePressEvent pos).circlePending = c.circlePending ∧
    (c.mousePressEvent pos).squarePending = c.squarePending ∧
    (c.mousePressEvent pos).pendingCircleCenter = c.pendingCircleCenter ∧
    (c.mousePressEvent pos).pendingSquareCenter = c.pendingSquareCenter := by
  simp only [Canvas.mousePressEvent]
  repeat' split
  all_goals exact ⟨rfl, rfl, rfl, rfl, rfl⟩

theorem mouseMoveEvent_frame (lib : QtLib K) (c c1 : Canvas K) (pos : QPointF K)
    (h : c.mouseMoveEvent lib pos = some c1) :
    c1.currentPos = c.currentPos ∧ c1.circlePending = c.circlePending ∧
    c1.squarePending = c.squarePending ∧
    c1.pendingCircleCenter = c.pendingCircleCenter ∧
    c1.pendingSquareCenter = c.pendingSquareCenter ∧
    c1.tool = c.tool ∧ c1.bezierPts = c.bezierPts ∧ c1.currentItem = c.currentItem ∧
    c1.snapToGrid = c.snapToGrid := by
  simp only [Canvas.mouseMoveEvent] at h
  repeat' split at h
  all_goals first
    | (cases h; exact ⟨rfl, rfl, rfl, rfl, rfl, rfl, rfl, rfl, rfl⟩)
    | exact absurd h (by simp)

omit [LinearOrderedField K] [FloorRing K] in
theorem mouseReleaseEvent_frame (c : Canvas K) :
    c.mouseReleaseEvent.currentPos = c.currentPos ∧
    c.mouseReleaseEvent.circlePending = c.circlePending ∧
    c.mouseReleaseEvent.squarePending = c.squarePending ∧
    c.mouseReleaseEvent.pendingCircleCenter = c.pendingCircleCenter ∧
    c.mouseReleaseEvent.pendingSquareCenter = c.pendingSquareCenter := by
  unfold Canvas.mouseReleaseEvent
  split <;> exact ⟨rfl, rfl, rfl, rfl, rfl⟩

/-! ## Draft and tool (C20) -/

omit [LinearOrderedField K] [FloorRing K] in
theorem toolMakes_tool (t : Tool) (s : Shape K) (h : toolMakes t s = true) :
    t = Tool.Rectangle ∨ t = Tool.Ellipse ∨ t = Tool.Line := by
  cases t <;> cases s <;> simp [toolMakes] at h ⊢

omit [LinearOrderedField K] [FloorRing K] in
theorem toolMakes_not_path (t : Tool) (s : Shape K) (h : toolMakes t s = true) :
    s.isPath = false := by
  cases t <;> cases s <;> simp [toolMakes, Shape.isPath] at h ⊢

omit [LinearOrderedField K] [FloorRing K] in
theorem countP_set_eq {α : Type} (p : α → Bool) :
    ∀ (l : List α) (i : ℕ) (a b : α), l.get? i = some b → p a = p b →
      (l.set i a).countP p = l.countP p
  | [], _, _, _, h, _ => by simp at h
  | x :: l, 0, a, b, h, hp => by
    simp only [List.get?_cons_zero, Option.some.injEq] at h
    subst h
    simp [List.countP_cons, hp]
  | x :: l, i + 1, a, b, h, hp => by
    simp only [List.get?_cons_succ] at h
    simp [List.countP_cons, countP_set_eq p l i a b h hp]

omit [LinearOrderedField K] [FloorRing K] in
theorem get?_of_prefix {α : Type} {l1 l2 : List α} (h : l1 <+: l2) {i : ℕ} {a : α}
    (hg : l1.get? i = some a) : l2.get? i = some a := by
  obtain ⟨t, rfl⟩ := h
  have hi : i < l1.length := by
    rw [List.get?_eq_some] at hg
    exact hg.1
  rw [List.get?_eq_getElem?, List.getElem?_append_left hi, ← List.get?_eq_getElem?]
  exact hg

omit [LinearOrderedField K] [FloorRing K] in
theorem updateItem_some (scene : List (Item K)) (i : ℕ) (f : Shape K → Option (Shape K))
    (it : Item K) (sh : Shape K) (hg : scene.get? i = some it) (hf : f it.shape = some sh) :
    updateItem scene i f = some (scene.set i { it with shape := sh }) := by
  unfold updateItem
  rw [hg]
  simp only [hf]

/-- A pointer move while a draft of the tool's class is dragged: the draft
gets a new shape of the same class and the indicator follows. -/
theorem mouseMoveEvent_active (lib : QtLib K) (c : Canvas K) (pos : QPointF K) (i : ℕ)
    (it : Item K) (hd : c.drawing = true) (hi : c.currentItem = some i)
    (hg : c.scene.get? i = some it) (hm : toolMakes c.tool it.shape = true) :
    ∃ sh, toolMakes c.tool sh = true ∧
      c.mouseMoveEvent lib pos =
        some { c with
          scene := c.scene.set i { it with shape := sh }
          mouseMoved := c.mouseMoved ++ [c.snap pos] ++ [c.snap pos]
          snapIndicator := ⟨(c.snap pos).x - 4, (c.snap pos).y - 4, 8, 8⟩ } := by
  cases ht : c.tool <;> cases hs : it.shape <;> simp [toolMakes, ht, hs] at hm
  · refine ⟨Shape.rect (QRectF.ofPoints c.start (c.snap pos)).normalized,
      by simp [toolMakes], ?_⟩
    simp only [Canvas.mouseMoveEvent, hd, hi, ht, updateItem, hg, hs]
    simp
  · refine ⟨Shape.ellipse ⟨c.start.x - QLineF.length lib ⟨c.start, c.snap pos⟩,
        c.start.y - QLineF.length lib ⟨c.start, c.snap pos⟩,
        2 * QLineF.length lib ⟨c.start, c.snap pos⟩,
        2 * QLineF.length lib ⟨c.start, c.snap pos⟩⟩, by simp [toolMakes], ?_⟩
    simp only [Canvas.mouseMoveEvent, hd, hi, ht, updateItem, hg, hs]
    simp
  · refine ⟨Shape.line ⟨c.start, c.snap pos⟩, by simp [toolMakes], ?_⟩
    simp only [Canvas.mouseMoveEvent, hd, hi, ht, updateItem, hg, hs]
    simp

/-- Where draft and tool agree, a pointer move has a defined result, in which
they still agree and the scene has as many path items as before. -/
theorem mouseMoveEvent_defined (lib : QtLib K) (c : Canvas K) (pos : QPointF K)
    (h : DraftOK c) :
    ∃ c1, c.mouseMoveEvent lib pos = some c1 ∧ DraftOK c1 ∧
      pathCount c1.scene = pathCount c.scene := by
  by_cases hidle : c.drawing = false ∨ c.currentItem = none ∨ c.tool = Tool.Bezier
  · exact ⟨_, mouseMoveEvent_idle lib c pos hidle, h, rfl⟩
  · simp only [not_or] at hidle
    obtain ⟨hd, hn, -⟩ := hidle
    have hd1 : c.drawing = true := by simpa using hd
    obtain ⟨i, hi⟩ := Option.ne_none_iff_exists'.mp hn
    obtain ⟨it, hg, hm⟩ := h i hi
    obtain ⟨sh, hsh, hmove⟩ := mouseMoveEvent_active lib c pos i it hd1 hi hg hm
    refine ⟨_, hmove, ?_, ?_⟩
    · intro j hj
      have hji : j = i := by
        have : some j = some i := hj.symm.trans hi
        exact (Option.some.inj this)
      subst hji
      refine ⟨{ it with shape := sh }, ?_, hsh⟩
      show (c.scene.set j _).get? j = _
      rw [List.get?_eq_getElem?, List.getElem?_set_self]
      have hlt : j < c.scene.length := by
        rw [List.get?_eq_some] at hg
        exact hg.1
      simp [hlt]
    · show pathCount (c.scene.set i _) = _
      refine countP_set_eq _ _ _ _ _ hg ?_
      show sh.isPath = it.shape.isPath
      rw [toolMakes_not_path _ _ hsh, toolMakes_not_path _ _ hm]

theorem mousePressEvent_draftOK (c : Canvas K) (pos : QPointF K) (h : DraftOK c) :
    DraftOK (c.mousePressEvent pos) := by
  cases ht : c.tool
  · simpa [Canvas.mousePressEvent, ht] using h
  · intro i hi
    simp only [Canvas.mousePressEvent, ht, Canvas.addItem] at hi ⊢
    simp at hi
    subst hi
    exact ⟨⟨Shape.rect (QRectF.ofPoints (c.snap pos) (c.snap pos)), Color.black, none, 0⟩,
      by simp, by simp [toolMakes]⟩
  · intro i hi
    simp only [Canvas.mousePressEvent, ht, Canvas.addItem] at hi ⊢
    simp at hi
    subst hi
    exact ⟨⟨Shape.ellipse ⟨0, 0, 0, 0⟩, Color.blue, none, 0⟩, by simp, by simp [toolMakes]⟩
  · intro i hi
    simp only [Canvas.mousePressEvent, ht, Canvas.addItem] at hi ⊢
    simp at hi
    subst hi
    exact ⟨⟨Shape.line ⟨c.snap pos, c.snap pos⟩, Color.red, none, 0⟩, by simp,
      by simp [toolMakes]⟩
  · have hnone : c.currentItem = none := by
      cases hc : c.currentItem with
      | none => rfl
      | some i =>
        obtain ⟨it, -, hm⟩ := h i hc
        rw [ht] at hm
        simp [toolMakes] at hm
    intro i hi
    have : (c.mousePressEvent pos).currentItem = c.currentItem := by
      simp only [Canvas.mousePressEvent, ht]
      repeat' split
      all_goals rfl
    rw [this, hnone] at hi
    cases hi

omit [LinearOrderedField K] [FloorRing K] in
theorem mouseReleaseEvent_draftOK (c : Canvas K) (h : DraftOK c) :
    DraftOK c.mouseReleaseEvent := by
  unfold Canvas.mouseReleaseEvent
  split
  · intro i hi
    cases hi
  · exact h

omit [FloorRing K] in
theorem runCommand_draftOK (lib : QtLib K) (c : Canvas K) (cmd : QString) (h : DraftOK c) :
    DraftOK (c.runCommand lib cmd) := by
  obtain ⟨ht, -, -, -, hi, -, -, hp⟩ := runTokens_frame lib c (tokenize lib cmd)
  intro i hci
  rw [runCommand_eq, hi] at hci
  obtain ⟨it, hg, hm⟩ := h i hci
  exact ⟨it, get?_of_prefix hp hg, by rw [runCommand_eq, ht]; exact hm⟩

/-- Along an event sequence that invokes `setTool` only while no draft is
held, every event has a defined result and draft and tool keep agreeing. -/
theorem runEvents_draftOK (lib : QtLib K) :
    ∀ (evs : List (Event K)) (c : Canvas K), DraftOK c → SetToolGuarded lib c evs →
      ∃ c1, c.runEvents lib evs = some c1 ∧ DraftOK c1
  | [], c, h, _ => ⟨c, rfl, h⟩
  | e :: evs, c, h, hg => by
    obtain ⟨hset, hrest⟩ := hg
    have hstep : ∃ c1, c.step lib e = some c1 ∧ DraftOK c1 := by
      cases e with
      | setTool t =>
        refine ⟨_, rfl, ?_⟩
        intro i hi
        have hn : c.currentItem = none := hset t rfl
        have : (c.setTool t).currentItem = c.currentItem := rfl
        rw [this, hn] at hi
        cases hi
      | toggleSnap b => exact ⟨_, rfl, h⟩
      | press pos => exact ⟨_, rfl, mousePressEvent_draftOK c pos h⟩
      | move pos =>
        obtain ⟨c1, h1, h2, -⟩ := mouseMoveEvent_defined lib c pos h
        exact ⟨c1, h1, h2⟩
      | release => exact ⟨_, rfl, mouseReleaseEvent_draftOK c h⟩
      | command cmd => exact ⟨_, rfl, runCommand_draftOK lib c cmd h⟩
    obtain ⟨c1, h1, hok⟩ := hstep
    obtain ⟨c2, h2, hok2⟩ := runEvents_draftOK lib evs c1 hok (hrest c1 h1)
    exact ⟨c2, by simp only [Canvas.runEvents, h1, h2], hok2⟩

/-! ## The Bezier accumulator (C19) -/

omit [LinearOrderedField K] [FloorRing K] in
theorem pathCount_append_one (scene : List (Item K)) (it : Item K) :
    pathCount (scene ++ [it]) = pathCount scene + if it.shape.isPath then 1 else 0 := by
  simp [pathCount, List.countP_append, List.countP_cons, Item.isPath]

omit [LinearOrderedField K] [FloorRing K] in
theorem updateItem_pathCount (scene sc : List (Item K)) (i : ℕ)
    (f : Shape K → Option (Shape K)) (h : updateItem scene i f = some sc)
    (hf : ∀ s s1, f s = some s1 → s1.isPath = s.isPath) :
    pathCount sc = pathCount scene := by
  unfold updateItem at h
  split at h
  · cases h
  · rename_i it hg
    split at h
    · cases h
    · rename_i sh hsh
      cases h
      exact countP_set_eq _ _ _ _ _ hg (hf _ _ hsh)

/-- A pointer move with a defined result leaves the number of path items. -/
theorem mouseMoveEvent_pathCount (lib : QtLib K) (c c1 : Canvas K) (pos : QPointF K)
    (h : c.mouseMoveEvent lib pos = some c1) : pathCount c1.scene = pathCount c.scene := by
  simp only [Canvas.mouseMoveEvent] at h
  split at h
  · cases h
    rfl
  · split at h
    · cases h
      rfl
    · split at h
      · cases h
      · rename_i i _ sc hsc
        cases h
        show pathCount sc = pathCount c.scene
        split at hsc
        · refine updateItem_pathCount _ _ _ _ hsc ?_
          intro s s1 hs
          cases s <;> simp at hs
          subst hs
          rfl
        · refine updateItem_pathCount _ _ _ _ hsc ?_
          intro s s1 hs
          cases s <;> simp at hs
          subst hs
          rfl
        · refine updateItem_pathCount _ _ _ _ hsc ?_
          intro s s1 hs
          cases s <;> simp at hs
          subst hs
          rfl
        · cases hsc
          rfl

theorem mousePressEvent_other (c : Canvas K) (pos : QPointF K) (ht : c.tool ≠ Tool.Bezier) :
    (c.mousePressEvent pos).bezierPts = c.bezierPts ∧
    pathCount (c.mousePressEvent pos).scene = pathCount c.scene := by
  cases h : c.tool
  · simp [Canvas.mousePressEvent, h]
  · simp [Canvas.mousePressEvent, h, Canvas.addItem, pathCount_append_one, Shape.isPath]
  · simp [Canvas.mousePressEvent, h, Canvas.addItem, pathCount_append_one, Shape.isPath]
  · simp [Canvas.mousePressEvent, h, Canvas.addItem, pathCount_append_one, Shape.isPath]
  · exact absurd h ht

omit [LinearOrderedField K] [FloorRing K] in
theorem mouseReleaseEvent_same (c : Canvas K) :
    c.mouseReleaseEvent.bezierPts = c.bezierPts ∧ c.mouseReleaseEvent.scene = c.scene := by
  unfold Canvas.mouseReleaseEvent
  split <;> exact ⟨rfl, rfl⟩

/-- The count behind C19, from any state whose accumulator holds at most
three points: after the run the accumulator holds the number of points and
Bezier presses modulo 4, and the handlers have added that number divided by 4
paths. -/
theorem bezier_count (lib : QtLib K) :
    ∀ (evs : List (Event K)) (c0 c : Canvas K), c0.runEvents lib evs = some c →
      c0.bezierPts.length ≤ 3 →
      c.bezierPts.length = (c0.bezierPts.length + bezierPresses lib c0 evs) % 4 ∧
      handlerPaths lib c0 evs = (c0.bezierPts.length + bezierPresses lib c0 evs) / 4
  | [], c0, c, h, hl => by
    cases h
    simp only [bezierPresses, handlerPaths, add_zero]
    constructor <;> omega
  | e :: evs, c0, c, h, hl => by
    simp only [Canvas.runEvents] at h
    cases hs : c0.step lib e with
    | none => rw [hs] at h; cases h
    | some c1 =>
      rw [hs] at h
      simp only [bezierPresses, handlerPaths, hs]
      cases e with
      | setTool t =>
        cases hs
        have ih := bezier_count lib evs _ c h (show (c0.setTool t).bezierPts.length ≤ 3 from hl)
        have e0 : (c0.setTool t).bezierPts = c0.bezierPts := rfl
        rw [e0] at ih
        simpa using ih
      | toggleSnap b =>
        cases hs
        have ih := bezier_count lib evs _ c h
          (show (c0.toggleSnap b).bezierPts.length ≤ 3 from hl)
        have e0 : (c0.toggleSnap b).bezierPts = c0.bezierPts := rfl
        rw [e0] at ih
        simpa using ih
      | command cmd =>
        cases hs
        have e0 : (c0.runCommand lib cmd).bezierPts = c0.bezierPts :=
          (runTokens_frame lib c0 (tokenize lib cmd)).2.2.2.2.2.1
        have ih := bezier_count lib evs _ c h (by rw [e0]; exact hl)
        rw [e0] at ih
        simpa using ih
      | release =>
        cases hs
        obtain ⟨e0, e1⟩ := mouseReleaseEvent_same c0
        have ih := bezier_count lib evs _ c h (by rw [e0]; exact hl)
        rw [e0] at ih
        simpa [e1] using ih
      | move pos =>
        have e0 : c1.bezierPts = c0.bezierPts :=
          (mouseMoveEvent_frame lib c0 c1 pos hs).2.2.2.2.2.2.1
        have e1 := mouseMoveEvent_pathCount lib c0 c1 pos hs
        have ih := bezier_count lib evs c1 c h (by rw [e0]; exact hl)
        rw [e0] at ih
        simpa [e1] using ih
      | press pos =>
        cases hs
        by_cases ht : c0.tool = Tool.Bezier
        · rcases Nat.lt_or_ge c0.bezierPts.length 3 with hlt | hge
          · have hp := press_bezier_collect c0 pos ht hlt
            have ih := bezier_count lib evs _ c h (by rw [hp]; simp; omega)
            rw [hp] at ih ⊢
            simp only [List.length_append, List.length_singleton, ht, if_true,
              Nat.sub_self] at ih ⊢
            constructor <;> omega
          · have h3 : c0.bezierPts.length = 3 := by omega
            match hb : c0.bezierPts, h3 with
            | [a, b, d], _ =>
              have hp := press_bezier_commit c0 pos a b d ht hb
              have ih := bezier_count lib evs _ c h (by rw [hp]; simp)
              rw [hp] at ih ⊢
              simp only [List.length_nil, List.length_cons, ht, if_true, pathCount_append_one,
                cubicItem, Shape.isPath] at ih ⊢
              constructor <;> omega
        · obtain ⟨e0, e1⟩ := mousePressEvent_other c0 pos ht
          have ih := bezier_count lib evs _ c h (by rw [e0]; exact hl)
          rw [e0] at ih
          simpa [e1, ht] using ih

/-- C19: in every state reached from the initial state by setTool, toggleSnap,
press, move, release events and command lines, the Bezier accumulator holds
at most three points, and the number of paths the pointer handlers have added
is the number of presses made with the Bezier tool divided by 4, rounded
down. -/
theorem bezier_accumulator_bound (lib : QtLib K) (evs : List (Event K)) (c : Canvas K)
    (h : (Canvas.init K).runEvents lib evs = some c) :
    c.bezierPts.length ≤ 3 ∧
    handlerPaths lib (Canvas.init K) evs = bezierPresses lib (Canvas.init K) evs / 4 := by
  obtain ⟨h1, h2⟩ := bezier_count lib evs (Canvas.init K) c h (Nat.zero_le 3)
  have e : (Canvas.init K).bezierPts.length = 0 := rfl
  rw [e, Nat.zero_add] at h1 h2
  exact ⟨by omega, h2⟩

/-! ## The Ellipse tool (C18) -/

theorem press_ellipse (c : Canvas K) (P : QPointF K) (ht : c.tool = Tool.Ellipse) :
    c.mousePressEvent P =
      { c with
        drawing := true
        start := c.snap P
        scene := c.scene ++ [⟨Shape.ellipse ⟨0, 0, 0, 0⟩, Color.blue, none, 0⟩]
        currentItem := some c.scene.length } := by
  simp [Canvas.mousePressEvent, ht, Canvas.addItem]

theorem move_ellipse (lib : QtLib K) (c : Canvas K) (pos : QPointF K) (sc : List (Item K))
    (r0 : QRectF K) (ht : c.tool = Tool.Ellipse) (hd : c.drawing = true)
    (hs : c.scene = sc ++ [⟨Shape.ellipse r0, Color.blue, none, 0⟩])
    (hi : c.currentItem = some sc.length) :
    c.mouseMoveEvent lib pos =
      some { c with
        scene := sc ++ [circleItem c.start (QLineF.length lib ⟨c.start, c.snap pos⟩)]
        mouseMoved := c.mouseMoved ++ [c.snap pos] ++ [c.snap pos]
        snapIndicator := ⟨(c.snap pos).x - 4, (c.snap pos).y - 4, 8, 8⟩ } := by
  have hg : c.scene.get? sc.length = some ⟨Shape.ellipse r0, Color.blue, none, 0⟩ := by
    rw [hs]
    simp
  simp only [Canvas.mouseMoveEvent, ht, hd, hi, updateItem, hg]
  simp [hs, circleItem]

/-- Pointer moves while an ellipse draft is dragged: the draft ends as the
circle about the anchor through the last snapped point. -/
theorem ellipse_moves (lib : QtLib K) :
    ∀ (qs : List (QPointF K)) (q : QPointF K) (c : Canvas K) (sc : List (Item K))
      (r0 : QRectF K), c.tool = Tool.Ellipse → c.drawing = true →
      c.scene = sc ++ [⟨Shape.ellipse r0, Color.blue, none, 0⟩] →
      c.currentItem = some sc.length →
      ∃ c1, c.runEvents lib ((q :: qs).map Event.move) = some c1 ∧
        c1.tool = Tool.Ellipse ∧
        c1.scene = sc ++ [circleItem c.start (QLineF.length lib
          ⟨c.start, c.snap ((q :: qs).getLast (List.cons_ne_nil q qs))⟩)]
  | [], q, c, sc, r0, ht, hd, hs, hi => by
    refine ⟨{ c with
        scene := sc ++ [circleItem c.start (QLineF.length lib ⟨c.start, c.snap q⟩)]
        mouseMoved := c.mouseMoved ++ [c.snap q] ++ [c.snap q]
        snapIndicator := ⟨(c.snap q).x - 4, (c.snap q).y - 4, 8, 8⟩ }, ?_, ht, rfl⟩
    simp only [List.map, Canvas.runEvents, Canvas.step,
      move_ellipse lib c q sc r0 ht hd hs hi]
  | q1 :: qs, q, c, sc, r0, ht, hd, hs, hi => by
    obtain ⟨c1, h1, h2, h3⟩ := ellipse_moves lib qs q1
      { c with
        scene := sc ++ [circleItem c.start (QLineF.length lib ⟨c.start, c.snap q⟩)]
        mouseMoved := c.mouseMoved ++ [c.snap q] ++ [c.snap q]
        snapIndicator := ⟨(c.snap q).x - 4, (c.snap q).y - 4, 8, 8⟩ }
      sc _ ht hd rfl hi
    refine ⟨c1, ?_, h2, ?_⟩
    · simp only [List.map, Canvas.runEvents, Canvas.step,
        move_ellipse lib c q sc r0 ht hd hs hi]
      exact h1
    · rw [h3, List.getLast_cons_cons]
      rfl

/-- The Ellipse gesture in any field: press, one or more moves, release. -/
theorem ellipse_run (lib : QtLib K) (c : Canvas K) (P q : QPointF K) (qs : List (QPointF K))
    (ht : c.tool = Tool.Ellipse) :
    ∃ c3, c.runEvents lib
        ([Event.press P] ++ (q :: qs).map Event.move ++ [Event.release]) = some c3 ∧
      c3.scene = c.scene ++ [circleItem (c.snap P) (QLineF.length lib
        ⟨c.snap P, c.snap ((q :: qs).getLast (List.cons_ne_nil q qs))⟩)] := by
  obtain ⟨c2, h1, h2, h3⟩ := ellipse_moves lib qs q (c.mousePressEvent P) c.scene ⟨0, 0, 0, 0⟩
    (by rw [press_ellipse c P ht]; exact ht) (by rw [press_ellipse c P ht])
    (by rw [press_ellipse c P ht]) (by rw [press_ellipse c P ht])
  refine ⟨c2.mouseReleaseEvent, ?_, ?_⟩
  · rw [List.append_assoc, runEvents_append]
    show (some (c.mousePressEvent P)).bind _ = _
    rw [Option.some_bind, runEvents_append, h1]
    rfl
  · rw [(mouseReleaseEvent_same c2).2, h3, press_ellipse c P ht]
    rfl

omit [FloorRing K] in
theorem length_eq (lib : QtLib K) (a b : QPointF K) :
    QLineF.length lib ⟨a, b⟩ =
      lib.sqrt ((b.x - a.x) * (b.x - a.x) + (b.y - a.y) * (b.y - a.y)) := rfl

/-- C18: over the reals with the real square root, for every state with the
Ellipse tool, every snap setting and raw points `P`, `Q1 .. Qn`, `n ≥ 1`, the
gesture press `P`, move `Q1`, ..., move `Qn`, release adds exactly one item to
the scene, the ellipse with bounding box `(A.x - r, A.y - r, 2r, 2r)` where
`A = snap P`, `B = snap Qn`, `0 ≤ r` and
`r * r = (B.x - A.x)^2 + (B.y - A.y)^2`. -/
theorem ellipse_gesture (lib : QtLib ℝ) (hreal : lib.sqrt = Real.sqrt) (c : Canvas ℝ)
    (P : QPointF ℝ) (qs : List (QPointF ℝ)) (hne : qs ≠ [])
    (ht : c.tool = Tool.Ellipse) :
    ∃ (c3 : Canvas ℝ) (r : ℝ),
      r = Real.sqrt (((c.snap (qs.getLast hne)).x - (c.snap P).x) ^ 2 +
        ((c.snap (qs.getLast hne)).y - (c.snap P).y) ^ 2) ∧
      0 ≤ r ∧
      r * r = ((c.snap (qs.getLast hne)).x - (c.snap P).x) ^ 2 +
        ((c.snap (qs.getLast hne)).y - (c.snap P).y) ^ 2 ∧
      c.runEvents lib ([Event.press P] ++ qs.map Event.move ++ [Event.release]) = some c3 ∧
      c3.scene = c.scene ++
        [⟨Shape.ellipse ⟨(c.snap P).x - r, (c.snap P).y - r, 2 * r, 2 * r⟩,
          Color.blue, none, 0⟩] := by
  obtain ⟨q, qs1, rfl⟩ := List.exists_cons_of_ne_nil hne
  obtain ⟨c3, h1, h2⟩ := ellipse_run lib c P q qs1 ht
  refine ⟨c3, _, rfl, Real.sqrt_nonneg _, Real.mul_self_sqrt (by positivity), h1, ?_⟩
  rw [h2, length_eq, hreal]
  simp only [circleItem, pow_two]

/-! ## Claims on the two modalities and on reachable states (C17 - C20) -/

omit [FloorRing K] in
theorem draftOK_init : DraftOK (Canvas.init K) := by
  intro i hi
  cases hi

theorem setToolGuarded_of_none (lib : QtLib K) :
    ∀ (evs : List (Event K)) (c : Canvas K), (∀ e ∈ evs, ∀ t, e ≠ Event.setTool t) →
      SetToolGuarded lib c evs
  | [], _, _ => trivial
  | e :: evs, _, h =>
    ⟨fun t he => absurd he (h e (List.mem_cons_self _ _) t),
      fun c1 _ => setToolGuarded_of_none lib evs c1 fun e1 h1 =>
        h e1 (List.mem_cons_of_mem _ h1)⟩

/-- C17: a command line leaves the tool state as it was (tool, snap flag,
drawing flag, anchor, draft reference, Bezier accumulator), and a pointer
press, move or release leaves the cursor, both pending flags and both pending
centres as they were; the move has a result whenever draft and tool agree. -/
theorem modalities_share_only_scene (lib : QtLib K) (c : Canvas K) (cmd : QString)
    (pos : QPointF K) :
    ((c.runCommand lib cmd).tool = c.tool ∧
      (c.runCommand lib cmd).snapToGrid = c.snapToGrid ∧
      (c.runCommand lib cmd).drawing = c.drawing ∧
      (c.runCommand lib cmd).start = c.start ∧
      (c.runCommand lib cmd).currentItem = c.currentItem ∧
      (c.runCommand lib cmd).bezierPts = c.bezierPts) ∧
    ((c.mousePressEvent pos).currentPos = c.currentPos ∧
      (c.mousePressEvent pos).circlePending = c.circlePending ∧
      (c.mousePressEvent pos).squarePending = c.squarePending ∧
      (c.mousePressEvent pos).pendingCircleCenter = c.pendingCircleCenter ∧
      (c.mousePressEvent pos).pendingSquareCenter = c.pendingSquareCenter) ∧
    (∀ c1, c.mouseMoveEvent lib pos = some c1 →
      c1.currentPos = c.currentPos ∧ c1.circlePending = c.circlePending ∧
      c1.squarePending = c.squarePending ∧
      c1.pendingCircleCenter = c.pendingCircleCenter ∧
      c1.pendingSquareCenter = c.pendingSquareCenter) ∧
    (DraftOK c → ∃ c1, c.mouseMoveEvent lib pos = some c1) ∧
    (c.mouseReleaseEvent.currentPos = c.currentPos ∧
      c.mouseReleaseEvent.circlePending = c.circlePending ∧
      c.mouseReleaseEvent.squarePending = c.squarePending ∧
      c.mouseReleaseEvent.pendingCircleCenter = c.pendingCircleCenter ∧
      c.mouseReleaseEvent.pendingSquareCenter = c.pendingSquareCenter) := by
  obtain ⟨h1, h2, h3, h4, h5, h6, -⟩ := runTokens_frame lib c (tokenize lib cmd)
  refine ⟨⟨h1, h2, h3, h4, h5, h6⟩, mousePressEvent_frame c pos, ?_, ?_,
    mouseReleaseEvent_frame c⟩
  · intro c1 hm
    obtain ⟨a1, a2, a3, a4, a5, -⟩ := mouseMoveEvent_frame lib c c1 pos hm
    exact ⟨a1, a2, a3, a4, a5⟩
  · intro hok
    obtain ⟨c1, hm, -⟩ := mouseMoveEvent_defined lib c pos hok
    exact ⟨c1, hm⟩

/-- C17, witness: in the initial state a pointer move to (30,30) has a result
and leaves the cursor at (100,100). -/
theorem modalities_share_only_scene_witness :
    ∃ c1, (Canvas.init ℚ).mouseMoveEvent simpleLib ⟨30, 30⟩ = some c1 ∧
      c1.currentPos = ⟨100, 100⟩ := by
  have h := modalities_share_only_scene simpleLib (Canvas.init ℚ) "move 1 1".toList ⟨30, 30⟩
  obtain ⟨c1, hm⟩ := h.2.2.2.1 draftOK_init
  exact ⟨c1, hm, (h.2.2.1 c1 hm).1⟩

/-- C18, witness: over the reals, Ellipse tool and snapping off in the initial
state, press at (0,0), moves to (1,1) and (3,4), release: one ellipse with
bounding box (-5,-5,10,10). -/
theorem ellipse_gesture_witness :
    (((Canvas.init ℝ).setTool Tool.Ellipse).toggleSnap false).tool = Tool.Ellipse ∧
    ∃ c3, (((Canvas.init ℝ).setTool Tool.Ellipse).toggleSnap false).runEvents
        (decimalLib Real.sqrt)
        ([Event.press ⟨0, 0⟩] ++ [(⟨1, 1⟩ : QPointF ℝ), ⟨3, 4⟩].map Event.move ++
          [Event.release]) = some c3 ∧
      c3.scene = [⟨Shape.ellipse ⟨-5, -5, 10, 10⟩, Color.blue, none, 0⟩] := by
  obtain ⟨c3, r, hr, -, -, hrun, hsc⟩ := ellipse_gesture (decimalLib Real.sqrt) rfl
    (((Canvas.init ℝ).setTool Tool.Ellipse).toggleSnap false) ⟨0, 0⟩
    [⟨1, 1⟩, ⟨3, 4⟩] (by simp) rfl
  refine ⟨rfl, c3, hrun, ?_⟩
  have e0 : (((Canvas.init ℝ).setTool Tool.Ellipse).toggleSnap false).snap ⟨0, 0⟩ =
      ⟨0, 0⟩ := snap_off _ rfl _
  have e1 : (((Canvas.init ℝ).setTool Tool.Ellipse).toggleSnap false).snap ⟨3, 4⟩ =
      ⟨3, 4⟩ := snap_off _ rfl _
  have hr5 : r = 5 := by
    rw [hr]
    simp only [List.getLast_cons_cons, List.getLast_singleton, e0, e1]
    rw [show ((3 : ℝ) - 0) ^ 2 + (4 - 0) ^ 2 = 5 ^ 2 by norm_num]
    exact Real.sqrt_sq (by norm_num)
  rw [hsc, e0, hr5]
  simp only [Canvas.toggleSnap, Canvas.setTool, Canvas.init, List.nil_append]
  norm_num

/-- C19, witness: the Bezier tool chosen in the initial state, five presses
with a move, a release and a command line in between: a result exists, the
accumulator holds at most three points, and 5 presses have added 1 path. -/
theorem bezier_accumulator_bound_witness :
    (∃ c, (Canvas.init ℚ).runEvents simpleLib
        [Event.setTool Tool.Bezier, Event.press ⟨0, 0⟩, Event.move ⟨5, 5⟩,
          Event.press ⟨20, 0⟩, Event.release, Event.press ⟨20, 20⟩,
          Event.command "circle 5".toList, Event.press ⟨0, 20⟩, Event.press ⟨40, 40⟩] = some c ∧
      c.bezierPts.length ≤ 3) ∧
    handlerPaths simpleLib (Canvas.init ℚ)
        [Event.setTool Tool.Bezier, Event.press ⟨0, 0⟩, Event.move ⟨5, 5⟩,
          Event.press ⟨20, 0⟩, Event.release, Event.press ⟨20, 20⟩,
          Event.command "circle 5".toList, Event.press ⟨0, 20⟩, Event.press ⟨40, 40⟩] =
      bezierPresses simpleLib (Canvas.init ℚ)
        [Event.setTool Tool.Bezier, Event.press ⟨0, 0⟩, Event.move ⟨5, 5⟩,
          Event.press ⟨20, 0⟩, Event.release, Event.press ⟨20, 20⟩,
          Event.command "circle 5".toList, Event.press ⟨0, 20⟩, Event.press ⟨40, 40⟩] / 4 ∧
    bezierPresses simpleLib (Canvas.init ℚ)
        [Event.setTool Tool.Bezier, Event.press ⟨0, 0⟩, Event.move ⟨5, 5⟩,
          Event.press ⟨20, 0⟩, Event.release, Event.press ⟨20, 20⟩,
          Event.command "circle 5".toList, Event.press ⟨0, 20⟩, Event.press ⟨40, 40⟩] = 5 ∧
    handlerPaths simpleLib (Canvas.init ℚ)
        [Event.setTool Tool.Bezier, Event.press ⟨0, 0⟩, Event.move ⟨5, 5⟩,
          Event.press ⟨20, 0⟩, Event.release, Event.press ⟨20, 20⟩,
          Event.command "circle 5".toList, Event.press ⟨0, 20⟩, Event.press ⟨40, 40⟩] = 1 := by
  have hg : SetToolGuarded simpleLib (Canvas.init ℚ)
      [Event.setTool Tool.Bezier, Event.press ⟨0, 0⟩, Event.move ⟨5, 5⟩,
          Event.press ⟨20, 0⟩, Event.release, Event.press ⟨20, 20⟩,
          Event.command "circle 5".toList, Event.press ⟨0, 20⟩, Event.press ⟨40, 40⟩] :=
    ⟨fun _ _ => rfl, fun c1 _ => setToolGuarded_of_none simpleLib _ c1 (by simp)⟩
  obtain ⟨c, hc, -⟩ := runEvents_draftOK simpleLib _ (Canvas.init ℚ) draftOK_init hg
  obtain ⟨h1, h2⟩ := bezier_accumulator_bound simpleLib _ c hc
  exact ⟨⟨c, hc, h1⟩, h2, by decide, by decide⟩

/-- C20: along every event sequence from the initial state in which `setTool`
is only invoked while no draft is held, every event has a defined result, and
in the state reached a held draft is an item of the scene, the tool is
Rectangle, Ellipse or Line and the draft is of the class that tool creates;
so a further pointer move has a defined result as well. -/
theorem draft_tool_agreement (lib : QtLib K) (evs : List (Event K))
    (hg : SetToolGuarded lib (Canvas.init K) evs) :
    ∃ c, (Canvas.init K).runEvents lib evs = some c ∧
      (∀ i, c.currentItem = some i →
        (c.tool = Tool.Rectangle ∨ c.tool = Tool.Ellipse ∨ c.tool = Tool.Line) ∧
        ∃ it, c.scene.get? i = some it ∧ toolMakes c.tool it.shape = true) ∧
      ∀ pos, ∃ c1, c.mouseMoveEvent lib pos = some c1 := by
  obtain ⟨c, hc, hok⟩ := runEvents_draftOK lib evs (Canvas.init K) draftOK_init hg
  refine ⟨c, hc, ?_, ?_⟩
  · intro i hi
    obtain ⟨it, h1, h2⟩ := hok i hi
    exact ⟨toolMakes_tool _ _ h2, it, h1, h2⟩
  · intro pos
    obtain ⟨c1, h1, -⟩ := mouseMoveEvent_defined lib c pos hok
    exact ⟨c1, h1⟩

/-- C20, witness: Rectangle chosen, a drag, release, then Ellipse chosen (no
draft is held then), press and move. -/
theorem draft_tool_agreement_witness :
    SetToolGuarded simpleLib (Canvas.init ℚ)
      [Event.setTool Tool.Rectangle, Event.press ⟨0, 0⟩, Event.move ⟨20, 20⟩, Event.release,
        Event.setTool Tool.Ellipse, Event.press ⟨40, 40⟩, Event.move ⟨60, 40⟩] ∧
    ∃ c, (Canvas.init ℚ).runEvents simpleLib
        [Event.setTool Tool.Rectangle, Event.press ⟨0, 0⟩, Event.move ⟨20, 20⟩, Event.release,
          Event.setTool Tool.Ellipse, Event.press ⟨40, 40⟩, Event.move ⟨60, 40⟩] = some c ∧
      ∀ pos, ∃ c1, c.mouseMoveEvent simpleLib pos = some c1 := by
  have hg : SetToolGuarded simpleLib (Canvas.init ℚ)
      [Event.setTool Tool.Rectangle, Event.press ⟨0, 0⟩, Event.move ⟨20, 20⟩, Event.release,
        Event.setTool Tool.Ellipse, Event.press ⟨40, 40⟩, Event.move ⟨60, 40⟩] := by
    refine ⟨fun _ _ => rfl, fun c1 h1 => ?_⟩
    obtain rfl : (Canvas.init ℚ).setTool Tool.Rectangle = c1 := Option.some.inj h1
    refine ⟨fun t h => (nomatch h), fun c2 h2 => ?_⟩
    obtain rfl : ((Canvas.init ℚ).setTool Tool.Rectangle).mousePressEvent ⟨0, 0⟩ = c2 :=
      Option.some.inj h2
    refine ⟨fun t h => (nomatch h), fun c3 h3 => ?_⟩
    have ht3 : c3.tool = Tool.Rectangle :=
      (mouseMoveEvent_frame simpleLib
        (((Canvas.init ℚ).setTool Tool.Rectangle).mousePressEvent ⟨0, 0⟩) c3 ⟨20, 20⟩
        h3).2.2.2.2.2.1
    refine ⟨fun t h => (nomatch h), fun c4 h4 => ?_⟩
    obtain rfl : c3.mouseReleaseEvent = c4 := Option.some.inj h4
    refine ⟨fun t _ => ?_, fun c5 _ => setToolGuarded_of_none simpleLib _ c5 (by simp)⟩
    simp [Canvas.mouseReleaseEvent, ht3]
  obtain ⟨c, hc, -, hmove⟩ := draft_tool_agreement simpleLib _ hg
  exact ⟨hg, c, hc, hmove⟩

end SVGEditor
